import Mathlib

/-!
# SVFiller: secondary-vertex features of a jet

A shallow embedding of `NtupleAK8/src/SVFiller.cc` (namespace `deepntuples`)
and theorems about the selection, ranking and feature emission done by
`SVFiller::fill`.

Modelling conventions

* `F` stands for a C++ floating-point value: NaN, the two infinities, or a
  finite value carried as an exact rational.  Comparisons and the special
  cases of the arithmetic follow IEEE-754.  `F.sub`, `F.mul` and `F.div` are
  the exact operations; the `double` operations of the source, `F.dsub`,
  `F.dmul` and `F.ddiv`, round the exact result to the nearest `double`, ties
  to even, and every value handed to `fillMulti<float>` is rounded to the
  nearest `float`.  The sign of zero is not represented.
* The conversions of a container size (`size_t`) to `int` and to `float` are
  represented exactly: wrap-around to 32 bits, and round-to-nearest-even on a
  24-bit significand.
* The framework classes used by the filler (`reco::deltaR`, `reco::deltaPhi`,
  `VertexDistanceXY`, `VertexDistance3D`, the vector algebra of
  `reco::Candidate::Vector`) are collected in the record `Geometry` and are
  arguments of every operation.
* `TreeData`, the output buffer, is kept as the journal of the calls it
  received, oldest first.
* `std::sort` is represented by a total, comparator-driven insertion sort.
-/

namespace deepntuples

/-! ## Floating-point values -/

/-- A floating-point value: not-a-number, minus infinity, plus infinity, or a
finite number. -/
inductive F where
  | nan : F
  | ninf : F
  | pinf : F
  | fin (q : ℚ) : F
  deriving DecidableEq

namespace F

/-- The test `std::isfinite`. -/
def isFinite : F → Bool
  | fin _ => true
  | _ => false

/-- The comparison `a < b`; false as soon as one side is NaN. -/
def lt : F → F → Bool
  | nan, _ => false
  | _, nan => false
  | ninf, ninf => false
  | ninf, _ => true
  | _, ninf => false
  | pinf, _ => false
  | fin _, pinf => true
  | fin a, fin b => decide (a < b)

/-- The comparison `a > b`. -/
def gt (a b : F) : Bool := lt b a

/-- The comparison `a <= b`; false as soon as one side is NaN. -/
def le : F → F → Bool
  | nan, _ => false
  | _, nan => false
  | ninf, _ => true
  | _, pinf => true
  | pinf, _ => false
  | fin _, ninf => false
  | fin a, fin b => decide (a ≤ b)

/-- The comparison `a >= b`. -/
def ge (a b : F) : Bool := le b a

/-- The rational carried by a finite value; zero for the others. -/
def toRat : F → ℚ
  | fin q => q
  | _ => 0

/-- Unary minus. -/
def neg : F → F
  | nan => nan
  | ninf => pinf
  | pinf => ninf
  | fin a => fin (-a)

/-- The function `std::fabs`. -/
def abs : F → F
  | nan => nan
  | ninf => pinf
  | pinf => pinf
  | fin a => fin |a|

/-- The exact difference `a - b`; infinity minus the same infinity is NaN. -/
def sub : F → F → F
  | nan, _ => nan
  | _, nan => nan
  | pinf, pinf => nan
  | ninf, ninf => nan
  | pinf, _ => pinf
  | ninf, _ => ninf
  | fin _, pinf => ninf
  | fin _, ninf => pinf
  | fin a, fin b => fin (a - b)

/-- The exact product `a * b`; infinity times zero is NaN. -/
def mul : F → F → F
  | nan, _ => nan
  | _, nan => nan
  | pinf, pinf => pinf
  | pinf, ninf => ninf
  | ninf, pinf => ninf
  | ninf, ninf => pinf
  | pinf, fin b => if 0 < b then pinf else if b < 0 then ninf else nan
  | ninf, fin b => if 0 < b then ninf else if b < 0 then pinf else nan
  | fin a, pinf => if 0 < a then pinf else if a < 0 then ninf else nan
  | fin a, ninf => if 0 < a then ninf else if a < 0 then pinf else nan
  | fin a, fin b => fin (a * b)

/-- The exact quotient `a / b`; a nonzero finite value over zero is an infinity,
zero over zero and infinity over infinity are NaN. -/
def div : F → F → F
  | nan, _ => nan
  | _, nan => nan
  | pinf, pinf => nan
  | pinf, ninf => nan
  | ninf, pinf => nan
  | ninf, ninf => nan
  | pinf, fin b => if b < 0 then ninf else pinf
  | ninf, fin b => if b < 0 then pinf else ninf
  | fin _, pinf => fin 0
  | fin _, ninf => fin 0
  | fin a, fin b =>
    if b = 0 then (if 0 < a then pinf else if a < 0 then ninf else nan) else fin (a / b)

end F

/-! ## Rounding to a binary format -/

/-- The integer nearest to `r`, a tie going to the even one. -/
def roundHalfEven (r : ℚ) : ℤ :=
  if r - ⌊r⌋ < 1 / 2 then ⌊r⌋
  else if 1 / 2 < r - ⌊r⌋ then ⌊r⌋ + 1
  else if ⌊r⌋ % 2 = 0 then ⌊r⌋ else ⌊r⌋ + 1

/-- The binary exponent used to round the magnitude `a`: the integer `e` with
`2 ^ e <= a < 2 ^ (e + 1)`, but not less than the least exponent `emin` of
the format (below `2 ^ emin` the values are subnormal). -/
def binExp (emin : ℤ) (a : ℚ) : ℤ := max (Int.log 2 a) emin

/-- The magnitude `a >= 0` rounded to the nearest multiple of the spacing
`2 ^ (e - k)` of a binary format with `k` fraction bits, where `e` is the
binary exponent of `a`; a tie goes to the even multiple. -/
def roundMag (k : ℕ) (emin : ℤ) (a : ℚ) : ℚ :=
  (roundHalfEven (a / 2 ^ (binExp emin a - k)) : ℚ) * 2 ^ (binExp emin a - k)

namespace F

/-- The conversion of a value to the binary format with `k` fraction bits and
least exponent `emin`, round-to-nearest, ties to even; a magnitude that rounds
to `2 ^ emax` or more becomes an infinity. -/
def roundTo (k : ℕ) (emin emax : ℤ) : F → F
  | fin q =>
    if 0 ≤ q then
      if (2 : ℚ) ^ emax ≤ roundMag k emin q then pinf else fin (roundMag k emin q)
    else
      if (2 : ℚ) ^ emax ≤ roundMag k emin (-q) then ninf else fin (-roundMag k emin (-q))
  | x => x

/-- The nearest `double` (binary64). -/
def toDouble (x : F) : F := roundTo 52 (-1022) 1024 x

/-- The nearest `float` (binary32): the conversion of a `double` to `float`. -/
def toFloat (x : F) : F := roundTo 23 (-126) 128 x

/-- The `double` expression `a - b`. -/
def dsub (a b : F) : F := toDouble (sub a b)

/-- The `double` expression `a * b`. -/
def dmul (a b : F) : F := toDouble (mul a b)

/-- The `double` expression `a / b`. -/
def ddiv (a b : F) : F := toDouble (div a b)

end F

/-! ## Conversions of a container size -/

/-- The conversion of a `size_t` to `int`: reduction modulo `2^32` read as a
two's-complement value. -/
def sizeToInt (n : Nat) : Int :=
  let m : Nat := n % 2 ^ 32
  if m < 2 ^ 31 then (m : Int) else (m : Int) - 2 ^ 32

/-- The number of low-order bits of `n` that do not fit in a 24-bit
significand: the least `e` with `n < 2 ^ (24 + e)`, searched with `fuel`
halvings. -/
def excessBits (n : Nat) : Nat → Nat
  | 0 => 0
  | fuel + 1 => if n < 2 ^ 24 then 0 else excessBits (n / 2) fuel + 1

/-- The value of a natural number after rounding to the nearest number with a
24-bit significand, ties to the even significand. -/
def roundToFloat (n : Nat) : Nat :=
  let e := excessBits n n
  let q := n / 2 ^ e
  let r := n % 2 ^ e
  if 2 * r < 2 ^ e then q * 2 ^ e
  else if 2 ^ e < 2 * r then (q + 1) * 2 ^ e
  else if q % 2 = 0 then q * 2 ^ e
  else (q + 1) * 2 ^ e

/-- The conversion of a `size_t` to `float`. -/
def sizeToFloat (n : Nat) : F := F.fin (roundToFloat n : ℚ)

/-! ## The sanitizer -/

/-- Modelled from the spec: `catchInfsAndBound` is declared in a header of the
package that is not part of the sources at hand.  "If `x` is non-finite (NaN or
±Infinity), replace it with `center`; otherwise clip `x` into the closed
interval `[low, high]`." -/
def catchInfsAndBound (x center low high : F) : F :=
  if x.isFinite then
    if F.lt x low then low
    else if F.gt x high then high
    else x
  else center

/-! ## Data model -/

/-- A point of space (`reco::Vertex::Point`). -/
structure Point where
  x : F
  y : F
  z : F
  deriving DecidableEq

/-- A three-vector (`reco::Candidate::Vector`). -/
structure Vector3 where
  x : F
  y : F
  z : F
  deriving DecidableEq

/-- A symmetric 3x3 position covariance (`reco::Vertex::CovarianceMatrix`). -/
structure CovarianceMatrix where
  xx : F
  xy : F
  xz : F
  yy : F
  yz : F
  zz : F
  deriving DecidableEq

/-- A fitted vertex (`reco::Vertex`): position and covariance. -/
structure Vertex where
  position : Point
  covariance : CovarianceMatrix
  deriving DecidableEq

/-- A distance with its uncertainty (`Measurement1D`), as reported by the
accessors `value()`, `error()` and `significance()`. -/
structure Measurement1D where
  value : F
  error : F
  significance : F
  deriving DecidableEq

/-- The part of `pat::Jet` read by the filler. -/
structure Jet where
  pt : F
  eta : F
  phi : F
  energy : F
  deriving DecidableEq

/-- The part of `reco::VertexCompositePtrCandidate` read by the filler. -/
structure SV where
  pt : F
  eta : F
  phi : F
  energy : F
  mass : F
  numberOfDaughters : Nat
  vertexChi2 : F
  vertexNdof : F
  vertex : Point
  vertexCovariance : CovarianceMatrix
  momentum : Vector3
  deriving DecidableEq

/-- The accessor `vertexNormalizedChi2()`: chi-square over degrees of
freedom. -/
def SV.vertexNormalizedChi2 (sv : SV) : F := F.ddiv sv.vertexChi2 sv.vertexNdof

/-- The framework functions called by the filler. -/
structure Geometry where
  /-- The function `reco::deltaR(sv, jet)`. -/
  deltaR : SV → Jet → F
  /-- The function `reco::deltaPhi(sv, jet)`. -/
  deltaPhi : SV → Jet → F
  /-- The method `VertexDistanceXY::distance`. -/
  distanceXY : Vertex → Vertex → Measurement1D
  /-- The method `VertexDistance3D::distance`. -/
  distance3D : Vertex → Vertex → Measurement1D
  /-- The method `Unit()` of a vector. -/
  unit : Vector3 → Vector3
  /-- The method `Dot` of a vector. -/
  dot : Vector3 → Vector3 → F

/-! ## The output buffer -/

/-- One call received by the output buffer. -/
inductive Call where
  | addInt (name : String) (dflt : Int) : Call
  | addFloat (name : String) (dflt : F) : Call
  | addMulti (name : String) : Call
  | fillInt (name : String) (value : Int) : Call
  | fillFloat (name : String) (value : F) : Call
  | fillMulti (name : String) (value : F) : Call
  deriving DecidableEq

/-- Modelled from the spec: `TreeData` is declared in a header of the package
that is not part of the sources at hand: "named, typed, append-only output
buffer with scalar and multi-valued per-jet slots", supporting
`declareScalar`, `declareMultiValued`, `setScalar` and `appendMultiValued`.
The buffer is the list of the calls it received, oldest first. -/
abbrev TreeData := List Call

namespace TreeData

/-- The call `data.add<int>(name, dflt)`. -/
def addInt (data : TreeData) (name : String) (dflt : Int) : TreeData :=
  data ++ [Call.addInt name dflt]

/-- The call `data.add<float>(name, dflt)`. -/
def addFloat (data : TreeData) (name : String) (dflt : F) : TreeData :=
  data ++ [Call.addFloat name dflt]

/-- The call `data.addMulti<float>(name)`. -/
def addMulti (data : TreeData) (name : String) : TreeData :=
  data ++ [Call.addMulti name]

/-- The call `data.fill<int>(name, value)`. -/
def fillInt (data : TreeData) (name : String) (value : Int) : TreeData :=
  data ++ [Call.fillInt name value]

/-- The call `data.fill<float>(name, value)`. -/
def fillFloat (data : TreeData) (name : String) (value : F) : TreeData :=
  data ++ [Call.fillFloat name value]

/-- The call `data.fillMulti<float>(name, value)`: the value is converted to
`float` and appended. -/
def fillMulti (data : TreeData) (name : String) (value : F) : TreeData :=
  data ++ [Call.fillMulti name (F.toFloat value)]

/-- The values appended to the multi-valued feature `name`, in order. -/
def multi (data : TreeData) (name : String) : List F :=
  data.filterMap fun c =>
    match c with
    | Call.fillMulti n v => if name = n then some v else none
    | _ => none

/-- The values set on the integer scalar `name`, in order. -/
def intScalar (data : TreeData) (name : String) : List Int :=
  data.filterMap fun c =>
    match c with
    | Call.fillInt n v => if name = n then some v else none
    | _ => none

/-- The values set on the float scalar `name`, in order. -/
def floatScalar (data : TreeData) (name : String) : List F :=
  data.filterMap fun c =>
    match c with
    | Call.fillFloat n v => if name = n then some v else none
    | _ => none

/-- The names declared as integer scalars, in order. -/
def intNames (data : TreeData) : List String :=
  data.filterMap fun c =>
    match c with
    | Call.addInt n _ => some n
    | _ => none

/-- The names declared as float scalars, in order. -/
def floatNames (data : TreeData) : List String :=
  data.filterMap fun c =>
    match c with
    | Call.addFloat n _ => some n
    | _ => none

/-- The names declared as multi-valued features, in order. -/
def multiNames (data : TreeData) : List String :=
  data.filterMap fun c =>
    match c with
    | Call.addMulti n => some n
    | _ => none

end TreeData

/-- Whether a call writes a value into a feature that `schema` declares with
the same arity and type; a declaration is not a write. -/
def Call.declaredIn (schema : TreeData) : Call → Bool
  | Call.fillInt n _ => decide (n ∈ schema.intNames)
  | Call.fillFloat n _ => decide (n ∈ schema.floatNames)
  | Call.fillMulti n _ => decide (n ∈ schema.multiNames)
  | _ => false

/-! ## Sorting -/

/-- Insertion of `x` into a list ordered by the comparator `comp`, after the
elements that `comp` puts before `x`. -/
def sortedInsert {α : Type} (comp : α → α → Bool) (x : α) : List α → List α
  | [] => [x]
  | y :: ys => if comp y x then y :: sortedInsert comp x ys else x :: y :: ys

/-- The algorithm `std::sort(first, last, comp)`, as an insertion sort: the
result is a rearrangement of the input in which no element is put by `comp`
strictly before an element that precedes it, whenever `comp` is a strict weak
ordering of the elements.  The order of elements that `comp` does not separate
is left open by the C++ standard; here they keep their input order.  For a
comparator that is not a strict weak ordering (a NaN among the keys) the
standard promises nothing; the function here still returns a rearrangement. -/
def stdSort {α : Type} (comp : α → α → Bool) : List α → List α
  | [] => []
  | x :: xs => sortedInsert comp x (stdSort comp xs)

/-! ## The filler -/

/-- The content of one event read by `readEvent`. -/
structure Event where
  vertices : List Vertex
  SVs : List SV

/-- The state of an `SVFiller`: the configured jet radius `jetR_`, the two
collections fetched for the current event, and the output buffer `data`. -/
structure SVFiller where
  jetR_ : F
  vertices : List Vertex
  SVs : List SV
  data : TreeData

/-- The failure of a call. -/
inductive FillError where
  /-- The exception `std::out_of_range` raised by `vertices->at(0)`. -/
  | outOfRange : FillError
  deriving DecidableEq

namespace SVFiller

/-- The method `SVFiller::readEvent`: fetch the two collections. -/
def readEvent (self : SVFiller) (iEvent : Event) : SVFiller :=
  { self with vertices := iEvent.vertices, SVs := iEvent.SVs }

/-- The method `SVFiller::book`: declare the two scalars and the eighteen
multi-valued features. -/
def book (data : TreeData) : TreeData :=
  let data := data.addInt "n_sv" 0
  let data := data.addFloat "nsv" (F.fin 0)
  -- basic kinematics
  let data := data.addMulti "sv_ptrel"
  let data := data.addMulti "sv_erel"
  let data := data.addMulti "sv_phirel"
  let data := data.addMulti "sv_etarel"
  let data := data.addMulti "sv_deltaR"
  let data := data.addMulti "sv_pt"
  let data := data.addMulti "sv_mass"
  -- sv properties
  let data := data.addMulti "sv_ntracks"
  let data := data.addMulti "sv_chi2"
  let data := data.addMulti "sv_ndf"
  let data := data.addMulti "sv_normchi2"
  let data := data.addMulti "sv_dxy"
  let data := data.addMulti "sv_dxyerr"
  let data := data.addMulti "sv_dxysig"
  let data := data.addMulti "sv_d3d"
  let data := data.addMulti "sv_d3derr"
  let data := data.addMulti "sv_d3dsig"
  let data := data.addMulti "sv_costhetasvpv"
  data

/-- The method `SVFiller::vertexDxy`: transverse distance of a candidate to
the primary vertex. -/
def vertexDxy (g : Geometry) (svcand : SV) (pv : Vertex) : Measurement1D :=
  let csv := svcand.vertexCovariance
  let svtx : Vertex := { position := svcand.vertex, covariance := csv }
  g.distanceXY svtx pv

/-- The method `SVFiller::vertexD3d`: full distance of a candidate to the
primary vertex. -/
def vertexD3d (g : Geometry) (svcand : SV) (pv : Vertex) : Measurement1D :=
  let csv := svcand.vertexCovariance
  let svtx : Vertex := { position := svcand.vertex, covariance := csv }
  g.distance3D svtx pv

/-- The method `SVFiller::vertexDdotP`: cosine of the angle between the
momentum of a candidate and its displacement from the primary vertex. -/
def vertexDdotP (g : Geometry) (sv : SV) (pv : Vertex) : F :=
  let p := sv.momentum
  let d : Vector3 :=
    { x := F.dsub sv.vertex.x pv.position.x,
      y := F.dsub sv.vertex.y pv.position.y,
      z := F.dsub sv.vertex.z pv.position.z }
  g.dot (g.unit p) (g.unit d)

/-- The first loop of `fill`: the candidates with `deltaR(sv, jet) < jetR_`,
in the order of the collection. -/
def selectSVs (g : Geometry) (self : SVFiller) (jet : Jet) : List SV :=
  self.SVs.filter fun sv => F.lt (g.deltaR sv jet) self.jetR_

/-- The comparator given to `std::sort`: larger transverse significance
first. -/
def bySignificance (g : Geometry) (pv : Vertex) (sv1 sv2 : SV) : Bool :=
  F.gt (vertexDxy g sv1 pv).significance (vertexDxy g sv2 pv).significance

/-- The list `jetSVs` once sorted. -/
def rankSVs (g : Geometry) (self : SVFiller) (jet : Jet) (pv : Vertex) : List SV :=
  stdSort (bySignificance g pv) (selectSVs g self jet)

/-- The value `etasign` of `fill`: `jet.eta() > 0 ? 1 : -1`. -/
def etasign (jet : Jet) : F :=
  if F.gt jet.eta (F.fin 0) then F.fin 1 else F.fin (-1)

/-- The value written to `sv_etarel`: `etasign * (sv->eta() - jet.eta())`. -/
def etarel (jet : Jet) (sv : SV) : F :=
  F.dmul (etasign jet) (F.dsub sv.eta jet.eta)

/-- The body of the second loop of `fill`: the eighteen entries of one
candidate. -/
def fillSV (g : Geometry) (jet : Jet) (pv : Vertex) (data : TreeData) (sv : SV) : TreeData :=
  -- basic kinematics
  let data := data.fillMulti "sv_ptrel" (F.ddiv sv.pt jet.pt)
  let data := data.fillMulti "sv_erel" (F.ddiv sv.energy jet.energy)
  let data := data.fillMulti "sv_phirel" (g.deltaPhi sv jet)
  let data := data.fillMulti "sv_etarel" (etarel jet sv)
  let data := data.fillMulti "sv_deltaR"
    (catchInfsAndBound (F.dsub (F.abs (g.deltaR sv jet)) (F.fin (1 / 2)))
      (F.fin 0) (F.fin (-2)) (F.fin 0))
  let data := data.fillMulti "sv_pt" sv.pt
  let data := data.fillMulti "sv_mass" sv.mass
  -- sv properties
  let data := data.fillMulti "sv_ntracks" (sizeToFloat sv.numberOfDaughters)
  let data := data.fillMulti "sv_chi2" sv.vertexChi2
  let data := data.fillMulti "sv_ndf" sv.vertexNdof
  let data := data.fillMulti "sv_normchi2"
    (catchInfsAndBound sv.vertexNormalizedChi2 (F.fin 1000) (F.fin (-1000)) (F.fin 1000))
  let dxy := vertexDxy g sv pv
  let data := data.fillMulti "sv_dxy" dxy.value
  let data := data.fillMulti "sv_dxyerr" dxy.error
  let data := data.fillMulti "sv_dxysig"
    (catchInfsAndBound dxy.significance (F.fin 0) (F.fin (-1)) (F.fin 800))
  let d3d := vertexD3d g sv pv
  let data := data.fillMulti "sv_d3d" d3d.value
  let data := data.fillMulti "sv_d3derr" d3d.error
  let data := data.fillMulti "sv_d3dsig"
    (catchInfsAndBound d3d.significance (F.fin 0) (F.fin (-1)) (F.fin 800))
  let data := data.fillMulti "sv_costhetasvpv" (vertexDdotP g sv pv)
  data

/-- The method `SVFiller::fill`: the value returned, or the exception raised,
and the output buffer when the call ends.  The argument `jet_helper` of the
method is not read and is left out. -/
def fill (g : Geometry) (self : SVFiller) (jet : Jet) (_jetidx : Nat) :
    Except FillError Bool × TreeData :=
  let jetSVs := selectSVs g self jet
  -- sort by dxy significance
  match self.vertices with
  | [] => (Except.error FillError.outOfRange, self.data)
  | pv :: _ =>
    let jetSVs := stdSort (bySignificance g pv) jetSVs
    let data := self.data.fillInt "n_sv" (sizeToInt jetSVs.length)
    let data := data.fillFloat "nsv" (sizeToFloat jetSVs.length)
    let data := jetSVs.foldl (fillSV g jet pv) data
    (Except.ok true, data)

/-- The calls made on the output buffer by one call of `fill`. -/
def written (g : Geometry) (self : SVFiller) (jet : Jet) (jetidx : Nat) : TreeData :=
  (fill g self jet jetidx).2.drop self.data.length

end SVFiller

/-! ## The per-candidate features, as a table -/

/-- The value of the multi-valued feature `name` for one candidate, as the
specification lists it and stored as a `float`; `none` for a name that is not
a multi-valued feature. -/
def featureOf (g : Geometry) (jet : Jet) (pv : Vertex) (name : String) (sv : SV) : Option F :=
  if name = "sv_ptrel" then some (F.toFloat (F.ddiv sv.pt jet.pt))
  else if name = "sv_erel" then some (F.toFloat (F.ddiv sv.energy jet.energy))
  else if name = "sv_phirel" then some (F.toFloat (g.deltaPhi sv jet))
  else if name = "sv_etarel" then some (F.toFloat (SVFiller.etarel jet sv))
  else if name = "sv_deltaR" then
    some (F.toFloat (catchInfsAndBound (F.dsub (F.abs (g.deltaR sv jet)) (F.fin (1 / 2)))
      (F.fin 0) (F.fin (-2)) (F.fin 0)))
  else if name = "sv_pt" then some (F.toFloat sv.pt)
  else if name = "sv_mass" then some (F.toFloat sv.mass)
  else if name = "sv_ntracks" then some (F.toFloat (sizeToFloat sv.numberOfDaughters))
  else if name = "sv_chi2" then some (F.toFloat sv.vertexChi2)
  else if name = "sv_ndf" then some (F.toFloat sv.vertexNdof)
  else if name = "sv_normchi2" then
    some (F.toFloat (catchInfsAndBound sv.vertexNormalizedChi2
      (F.fin 1000) (F.fin (-1000)) (F.fin 1000)))
  else if name = "sv_dxy" then some (F.toFloat (SVFiller.vertexDxy g sv pv).value)
  else if name = "sv_dxyerr" then some (F.toFloat (SVFiller.vertexDxy g sv pv).error)
  else if name = "sv_dxysig" then
    some (F.toFloat (catchInfsAndBound (SVFiller.vertexDxy g sv pv).significance
      (F.fin 0) (F.fin (-1)) (F.fin 800)))
  else if name = "sv_d3d" then some (F.toFloat (SVFiller.vertexD3d g sv pv).value)
  else if name = "sv_d3derr" then some (F.toFloat (SVFiller.vertexD3d g sv pv).error)
  else if name = "sv_d3dsig" then
    some (F.toFloat (catchInfsAndBound (SVFiller.vertexD3d g sv pv).significance
      (F.fin 0) (F.fin (-1)) (F.fin 800)))
  else if name = "sv_costhetasvpv" then some (F.toFloat (SVFiller.vertexDdotP g sv pv))
  else none

/-! ## Mirroring of the hemisphere -/

/-- The jet with the opposite pseudorapidity. -/
def Jet.mirror (jet : Jet) : Jet := { jet with eta := F.neg jet.eta }

/-- The candidate with the opposite pseudorapidity. -/
def SV.mirror (sv : SV) : SV := { sv with eta := F.neg sv.eta }

/-! ## A concrete event -/

/-- A one-dimensional stand-in for the framework geometry: separations are
differences of pseudorapidity or azimuth, distances are differences of the `x`
coordinate with the `xx` uncertainty of the first vertex, and the significance
is the quotient of value and error, all taken exactly. -/
def lineGeometry : Geometry where
  deltaR := fun sv jet => F.abs (F.sub sv.eta jet.eta)
  deltaPhi := fun sv jet => F.sub sv.phi jet.phi
  distanceXY := fun a b =>
    let v := F.abs (F.sub a.position.x b.position.x)
    { value := v, error := a.covariance.xx, significance := F.div v a.covariance.xx }
  distance3D := fun a b =>
    let v := F.abs (F.sub a.position.x b.position.x)
    { value := v, error := a.covariance.xx, significance := F.div v a.covariance.xx }
  unit := fun v => v
  dot := fun a b => F.mul a.x b.x

/-- The origin. -/
def origin : Point := { x := F.fin 0, y := F.fin 0, z := F.fin 0 }

/-- A diagonal covariance with the same entry on each axis. -/
def diagCov (c : ℚ) : CovarianceMatrix :=
  { xx := F.fin c, xy := F.fin 0, xz := F.fin 0, yy := F.fin c, yz := F.fin 0, zz := F.fin c }

/-- A primary vertex at the origin. -/
def pv0 : Vertex := { position := origin, covariance := diagCov (1 / 100) }

/-- The jet of the end-to-end scenario: pt 500, eta 0, phi 0, energy 520. -/
def jet0 : Jet := { pt := F.fin 500, eta := F.fin 0, phi := F.fin 0, energy := F.fin 520 }

/-- A candidate at pseudorapidity `eta`, displaced by `x` along the first
axis, with position uncertainty `err`. -/
def mkSV (eta x err : ℚ) : SV :=
  { pt := F.fin 50, eta := F.fin eta, phi := F.fin 0, energy := F.fin 60, mass := F.fin 2,
    numberOfDaughters := 3, vertexChi2 := F.fin 4, vertexNdof := F.fin 2,
    vertex := { x := F.fin x, y := F.fin 0, z := F.fin 0 },
    vertexCovariance := diagCov err,
    momentum := { x := F.fin 1, y := F.fin 0, z := F.fin 0 } }

/-- A filler with jet radius 0.8 and an empty buffer, after `readEvent`. -/
def filler0 (vertices : List Vertex) (SVs : List SV) : SVFiller :=
  { jetR_ := F.fin (8 / 10), vertices := vertices, SVs := SVs, data := [] }

/-! ## Auxiliary facts: rounding -/

theorem roundHalfEven_intCast (n : ℤ) : roundHalfEven (n : ℚ) = n := by
  simp [roundHalfEven]

theorem floor_le_roundHalfEven (r : ℚ) : ⌊r⌋ ≤ roundHalfEven r := by
  unfold roundHalfEven
  split_ifs <;> omega

theorem roundHalfEven_le_floor_add_one (r : ℚ) : roundHalfEven r ≤ ⌊r⌋ + 1 := by
  unfold roundHalfEven
  split_ifs <;> omega

theorem roundHalfEven_mono {r s : ℚ} (h : r ≤ s) : roundHalfEven r ≤ roundHalfEven s := by
  rcases lt_or_eq_of_le (Int.floor_mono h) with hlt | heq
  · calc roundHalfEven r ≤ ⌊r⌋ + 1 := roundHalfEven_le_floor_add_one r
      _ ≤ ⌊s⌋ := hlt
      _ ≤ roundHalfEven s := floor_le_roundHalfEven s
  · unfold roundHalfEven
    rw [heq]
    split_ifs <;> first | omega | (exfalso; linarith)

theorem two_zpow_pos (n : ℤ) : (0 : ℚ) < 2 ^ n := zpow_pos (by norm_num) n

theorem roundMag_nonneg (k : ℕ) (emin : ℤ) (a : ℚ) (ha : 0 ≤ a) : 0 ≤ roundMag k emin a := by
  unfold roundMag
  have h1 : (0 : ℚ) ≤ a / 2 ^ (binExp emin a - k) := div_nonneg ha (le_of_lt (two_zpow_pos _))
  have h2 : (0 : ℤ) ≤ roundHalfEven (a / 2 ^ (binExp emin a - k)) :=
    le_trans (Int.floor_nonneg.2 h1) (floor_le_roundHalfEven _)
  exact mul_nonneg (by exact_mod_cast h2) (le_of_lt (two_zpow_pos _))

theorem roundMag_zero (k : ℕ) (emin : ℤ) : roundMag k emin 0 = 0 := by
  simp [roundMag, roundHalfEven]

theorem lt_two_zpow_binExp (emin : ℤ) (a : ℚ) : a < 2 ^ (binExp emin a + 1) := by
  have h1 : a < ((2 : ℕ) : ℚ) ^ (Int.log 2 a + 1) := Int.lt_zpow_succ_log_self (by norm_num) a
  have h2 : ((2 : ℕ) : ℚ) ^ (Int.log 2 a + 1) ≤ (2 : ℚ) ^ (binExp emin a + 1) := by
    rw [Nat.cast_ofNat]
    exact zpow_le_zpow_right₀ (by norm_num) (by unfold binExp; omega)
  exact lt_of_lt_of_le h1 h2

theorem two_zpow_binExp_le (emin : ℤ) (a : ℚ) (ha : 0 < a) (he : emin < binExp emin a) :
    2 ^ binExp emin a ≤ a := by
  have h1 : binExp emin a = Int.log 2 a := by unfold binExp at *; omega
  have h2 : ((2 : ℕ) : ℚ) ^ Int.log 2 a ≤ a := Int.zpow_log_le_self (by norm_num) ha
  rw [h1]
  rwa [Nat.cast_ofNat] at h2

theorem binExp_mono (emin : ℤ) {a b : ℚ} (ha : 0 < a) (h : a ≤ b) :
    binExp emin a ≤ binExp emin b := by
  have := Int.log_mono_right (b := 2) ha h
  unfold binExp
  omega

theorem roundMag_le_two_zpow (k : ℕ) (emin : ℤ) (a : ℚ) :
    roundMag k emin a ≤ 2 ^ (binExp emin a + 1) := by
  unfold roundMag
  have hu := two_zpow_pos (binExp emin a - k)
  have hsplit : (2 : ℚ) ^ (binExp emin a + 1) = 2 ^ (k + 1) * 2 ^ (binExp emin a - k) := by
    rw [← zpow_natCast, ← zpow_add₀ (by norm_num)]
    congr 1
    push_cast
    ring
  have h1 : a / 2 ^ (binExp emin a - k) ≤ (((2 : ℤ) ^ (k + 1) : ℤ) : ℚ) := by
    rw [div_le_iff₀ hu]
    push_cast
    rw [← hsplit]
    exact le_of_lt (lt_two_zpow_binExp emin a)
  have h2 := roundHalfEven_mono h1
  rw [roundHalfEven_intCast] at h2
  rw [hsplit]
  have h3 : (roundHalfEven (a / 2 ^ (binExp emin a - k)) : ℚ) ≤ 2 ^ (k + 1) := by exact_mod_cast h2
  exact mul_le_mul_of_nonneg_right h3 (le_of_lt hu)

theorem two_zpow_le_roundMag (k : ℕ) (emin : ℤ) (a : ℚ) (ha : 0 < a)
    (he : emin < binExp emin a) : 2 ^ binExp emin a ≤ roundMag k emin a := by
  unfold roundMag
  have hu := two_zpow_pos (binExp emin a - k)
  have hsplit : (2 : ℚ) ^ binExp emin a = 2 ^ k * 2 ^ (binExp emin a - k) := by
    rw [← zpow_natCast, ← zpow_add₀ (by norm_num)]
    congr 1
    ring
  have h1 : (((2 : ℤ) ^ k : ℤ) : ℚ) ≤ a / 2 ^ (binExp emin a - k) := by
    rw [le_div_iff₀ hu]
    push_cast
    rw [← hsplit]
    exact two_zpow_binExp_le emin a ha he
  have h2 := roundHalfEven_mono h1
  rw [roundHalfEven_intCast] at h2
  rw [hsplit]
  have h3 : (2 : ℚ) ^ k ≤ (roundHalfEven (a / 2 ^ (binExp emin a - k)) : ℚ) := by exact_mod_cast h2
  exact mul_le_mul_of_nonneg_right h3 (le_of_lt hu)

theorem roundMag_mono (k : ℕ) (emin : ℤ) {a b : ℚ} (ha : 0 ≤ a) (h : a ≤ b) :
    roundMag k emin a ≤ roundMag k emin b := by
  rcases eq_or_lt_of_le ha with h0 | hpos
  · rw [← h0, roundMag_zero]
    exact roundMag_nonneg k emin b (le_trans ha h)
  · have hb : 0 < b := lt_of_lt_of_le hpos h
    rcases lt_or_eq_of_le (binExp_mono emin hpos h) with hlt | heq
    · have hemin : emin < binExp emin b := by
        have : emin ≤ binExp emin a := by unfold binExp; omega
        omega
      calc roundMag k emin a ≤ 2 ^ (binExp emin a + 1) := roundMag_le_two_zpow k emin a
        _ ≤ 2 ^ binExp emin b := zpow_le_zpow_right₀ (by norm_num) (by omega)
        _ ≤ roundMag k emin b := two_zpow_le_roundMag k emin b hb hemin
    · unfold roundMag
      rw [heq]
      have hu := two_zpow_pos (binExp emin b - k)
      have h1 : a / 2 ^ (binExp emin b - k) ≤ b / 2 ^ (binExp emin b - k) :=
        div_le_div_of_nonneg_right h (le_of_lt hu)
      have h2 := roundHalfEven_mono h1
      have h3 : (roundHalfEven (a / 2 ^ (binExp emin b - k)) : ℚ)
          ≤ (roundHalfEven (b / 2 ^ (binExp emin b - k)) : ℚ) := by exact_mod_cast h2
      exact mul_le_mul_of_nonneg_right h3 (le_of_lt hu)

theorem F.roundTo_neg (k : ℕ) (emin emax : ℤ) (x : F) :
    F.roundTo k emin emax (F.neg x) = F.neg (F.roundTo k emin emax x) := by
  cases x with
  | nan => rfl
  | ninf => rfl
  | pinf => rfl
  | fin q =>
    rcases lt_trichotomy q 0 with hq | hq | hq
    · have h1 : 0 ≤ -q := by linarith
      have h2 : ¬ 0 ≤ q := by linarith
      simp only [F.neg, F.roundTo, if_pos h1, if_neg h2]
      split_ifs <;> simp [F.neg]
    · subst hq
      have h0 : F.roundTo k emin emax (F.fin 0) = F.fin 0 := by
        simp [F.roundTo, roundMag_zero, not_le.2 (two_zpow_pos emax)]
      simp [F.neg, h0]
    · have h1 : ¬ 0 ≤ -q := by linarith
      have h2 : 0 ≤ q := by linarith
      simp only [F.neg, F.roundTo, if_neg h1, if_pos h2, neg_neg]
      split_ifs <;> simp [F.neg]

theorem F.roundTo_mono (k : ℕ) (emin emax : ℤ) {a b : ℚ} (h : a ≤ b) :
    F.le (F.roundTo k emin emax (F.fin a)) (F.roundTo k emin emax (F.fin b)) = true := by
  by_cases ha : 0 ≤ a
  · have hb : 0 ≤ b := le_trans ha h
    have hm := roundMag_mono k emin ha h
    simp only [F.roundTo, if_pos ha, if_pos hb]
    split_ifs with h1 h2 h2
    · rfl
    · exact absurd (le_trans h1 hm) h2
    · rfl
    · simpa [F.le] using hm
  · by_cases hb : 0 ≤ b
    · have hma := roundMag_nonneg k emin (-a) (by linarith)
      have hmb := roundMag_nonneg k emin b hb
      simp only [F.roundTo, if_neg ha, if_pos hb]
      split_ifs <;> simp [F.le]
      linarith
    · have hm := roundMag_mono k emin (a := -b) (b := -a) (by linarith) (by linarith)
      simp only [F.roundTo, if_neg ha, if_neg hb]
      split_ifs with h1 h2 h2
      · rfl
      · rfl
      · exact absurd (le_trans h2 hm) h1
      · simpa [F.le] using hm

theorem F.roundTo_between (k : ℕ) (emin emax : ℤ) (lo hi : ℚ) (x : F)
    (hlo : F.roundTo k emin emax (F.fin lo) = F.fin lo)
    (hhi : F.roundTo k emin emax (F.fin hi) = F.fin hi)
    (hx : x.isFinite = true) (h1 : F.le (F.fin lo) x = true) (h2 : F.le x (F.fin hi) = true) :
    (F.roundTo k emin emax x).isFinite = true
      ∧ F.le (F.fin lo) (F.roundTo k emin emax x) = true
      ∧ F.le (F.roundTo k emin emax x) (F.fin hi) = true := by
  cases x with
  | nan => simp [F.isFinite] at hx
  | ninf => simp [F.isFinite] at hx
  | pinf => simp [F.isFinite] at hx
  | fin r =>
    have hl : lo ≤ r := by simpa [F.le] using h1
    have hh : r ≤ hi := by simpa [F.le] using h2
    have m1 := F.roundTo_mono k emin emax hl
    have m2 := F.roundTo_mono k emin emax hh
    rw [hlo] at m1
    rw [hhi] at m2
    refine ⟨?_, m1, m2⟩
    cases hr : F.roundTo k emin emax (F.fin r) with
    | nan => rw [hr] at m1; simp [F.le] at m1
    | ninf => rw [hr] at m1; simp [F.le] at m1
    | pinf => rw [hr] at m2; simp [F.le] at m2
    | fin _ => rfl

theorem F.toFloat_neg (x : F) : F.toFloat (F.neg x) = F.neg (F.toFloat x) :=
  F.roundTo_neg 23 (-126) 128 x

theorem F.toDouble_neg (x : F) : F.toDouble (F.neg x) = F.neg (F.toDouble x) :=
  F.roundTo_neg 52 (-1022) 1024 x

theorem F.toFloat_mono {a b : ℚ} (h : a ≤ b) :
    F.le (F.toFloat (F.fin a)) (F.toFloat (F.fin b)) = true :=
  F.roundTo_mono 23 (-126) 128 h

theorem F.toDouble_mono {a b : ℚ} (h : a ≤ b) :
    F.le (F.toDouble (F.fin a)) (F.toDouble (F.fin b)) = true :=
  F.roundTo_mono 52 (-1022) 1024 h

theorem F.toFloat_between (lo hi : ℚ) (x : F)
    (hlo : F.toFloat (F.fin lo) = F.fin lo) (hhi : F.toFloat (F.fin hi) = F.fin hi)
    (hx : x.isFinite = true) (h1 : F.le (F.fin lo) x = true) (h2 : F.le x (F.fin hi) = true) :
    (F.toFloat x).isFinite = true
      ∧ F.le (F.fin lo) (F.toFloat x) = true ∧ F.le (F.toFloat x) (F.fin hi) = true :=
  F.roundTo_between 23 (-126) 128 lo hi x hlo hhi hx h1 h2

theorem F.toDouble_between (lo hi : ℚ) (x : F)
    (hlo : F.toDouble (F.fin lo) = F.fin lo) (hhi : F.toDouble (F.fin hi) = F.fin hi)
    (hx : x.isFinite = true) (h1 : F.le (F.fin lo) x = true) (h2 : F.le x (F.fin hi) = true) :
    (F.toDouble x).isFinite = true
      ∧ F.le (F.fin lo) (F.toDouble x) = true ∧ F.le (F.toDouble x) (F.fin hi) = true :=
  F.roundTo_between 52 (-1022) 1024 lo hi x hlo hhi hx h1 h2

/-! ## Auxiliary facts: the filler -/

open SVFiller

theorem sortedInsert_perm {α : Type} (comp : α → α → Bool) (x : α) (l : List α) :
    (sortedInsert comp x l).Perm (x :: l) := by
  induction l with
  | nil => exact List.Perm.refl _
  | cons y ys ih =>
    unfold sortedInsert
    split
    · exact (List.Perm.cons y ih).trans (List.Perm.swap x y ys)
    · exact List.Perm.refl _

theorem stdSort_perm {α : Type} (comp : α → α → Bool) (l : List α) :
    (stdSort comp l).Perm l := by
  induction l with
  | nil => exact List.Perm.refl _
  | cons x xs ih =>
    unfold stdSort
    exact (sortedInsert_perm comp x _).trans (List.Perm.cons x ih)

theorem fillSV_append (g : Geometry) (jet : Jet) (pv : Vertex) (data : TreeData) (sv : SV) :
    fillSV g jet pv data sv = data ++ fillSV g jet pv [] sv := by
  simp [fillSV, TreeData.fillMulti]

theorem foldl_fillSV (g : Geometry) (jet : Jet) (pv : Vertex) (l : List SV) (data : TreeData) :
    l.foldl (fillSV g jet pv) data = data ++ l.flatMap (fillSV g jet pv []) := by
  induction l generalizing data with
  | nil => simp
  | cons sv svs ih =>
    rw [List.foldl_cons, ih, fillSV_append]
    simp [List.flatMap_cons]

theorem fill_cons (g : Geometry) (self : SVFiller) (jet : Jet) (jetidx : Nat)
    (pv : Vertex) (pvs : List Vertex) (h : self.vertices = pv :: pvs) :
    fill g self jet jetidx =
      (Except.ok true,
        self.data ++ (Call.fillInt "n_sv" (sizeToInt (rankSVs g self jet pv).length)
          :: Call.fillFloat "nsv" (sizeToFloat (rankSVs g self jet pv).length)
          :: (rankSVs g self jet pv).flatMap (fillSV g jet pv []))) := by
  simp [fill, h, foldl_fillSV, rankSVs, TreeData.fillInt, TreeData.fillFloat]

theorem written_cons (g : Geometry) (self : SVFiller) (jet : Jet) (jetidx : Nat)
    (pv : Vertex) (pvs : List Vertex) (h : self.vertices = pv :: pvs) :
    written g self jet jetidx =
      Call.fillInt "n_sv" (sizeToInt (rankSVs g self jet pv).length)
        :: Call.fillFloat "nsv" (sizeToFloat (rankSVs g self jet pv).length)
        :: (rankSVs g self jet pv).flatMap (fillSV g jet pv []) := by
  simp [written, fill_cons g self jet jetidx pv pvs h]

theorem multi_fillSV (g : Geometry) (jet : Jet) (pv : Vertex) (name : String) (sv : SV) :
    TreeData.multi (fillSV g jet pv [] sv) name = (featureOf g jet pv name sv).toList := by
  by_cases h : name ∈ (book []).multiNames
  · simp [book, TreeData.multiNames, TreeData.addInt, TreeData.addFloat, TreeData.addMulti] at h
    rcases h with h | h | h | h | h | h | h | h | h | h | h | h | h | h | h | h | h | h <;>
      subst h <;> simp [fillSV, TreeData.fillMulti, TreeData.multi, featureOf]
  · simp [book, TreeData.multiNames, TreeData.addInt, TreeData.addFloat, TreeData.addMulti] at h
    simp [fillSV, TreeData.fillMulti, TreeData.multi, featureOf, h]

theorem multi_flatMap {α : Type} (f : α → TreeData) (name : String) (l : List α) :
    TreeData.multi (l.flatMap f) name = l.flatMap (fun x => TreeData.multi (f x) name) := by
  induction l with
  | nil => rfl
  | cons x xs ih =>
    have hx : TreeData.multi (f x ++ xs.flatMap f) name
        = TreeData.multi (f x) name ++ TreeData.multi (xs.flatMap f) name := by
      simp [TreeData.multi, List.filterMap_append]
    simp only [List.flatMap_cons, hx, ih]

theorem multi_written (g : Geometry) (self : SVFiller) (jet : Jet) (jetidx : Nat)
    (pv : Vertex) (pvs : List Vertex) (h : self.vertices = pv :: pvs) (name : String) :
    (written g self jet jetidx).multi name
      = (rankSVs g self jet pv).flatMap (fun sv => (featureOf g jet pv name sv).toList) := by
  rw [written_cons g self jet jetidx pv pvs h]
  have h2 : ∀ (a b : Call) (l : TreeData), (∀ n v, a ≠ Call.fillMulti n v) →
      (∀ n v, b ≠ Call.fillMulti n v) → TreeData.multi (a :: b :: l) name = TreeData.multi l name := by
    intro a b l ha hb
    cases a <;> cases b <;> simp_all [TreeData.multi]
  rw [h2 _ _ _ (by simp) (by simp), multi_flatMap]
  simp only [multi_fillSV]

theorem flatMap_toList_of_some {α β : Type} (f : α → Option β) (v : α → β) (l : List α)
    (h : ∀ x, f x = some (v x)) : l.flatMap (fun x => (f x).toList) = l.map v := by
  induction l with
  | nil => rfl
  | cons x xs ih => simp [List.flatMap_cons, h x, ih]

theorem mem_rankSVs (g : Geometry) (self : SVFiller) (jet : Jet) (pv : Vertex) (sv : SV) :
    sv ∈ rankSVs g self jet pv ↔ sv ∈ self.SVs ∧ F.lt (g.deltaR sv jet) self.jetR_ = true := by
  rw [rankSVs, (stdSort_perm _ _).mem_iff, selectSVs, List.mem_filter]

theorem length_rankSVs (g : Geometry) (self : SVFiller) (jet : Jet) (pv : Vertex) :
    (rankSVs g self jet pv).length = (selectSVs g self jet).length :=
  (stdSort_perm _ _).length_eq

theorem F.lt_irrefl (a : F) : F.lt a a = false := by
  cases a <;> simp [F.lt]

/-- C1: with a primary vertex at hand, the candidates that `fill` emits are a
rearrangement of those of the collection with `deltaR(sv, jet) < jetR_`: a
candidate is emitted if and only if it is in the collection at a separation
strictly below the radius, one at a separation equal to the radius is not
emitted, the sort neither drops nor duplicates a candidate, and the calls made
on the buffer are the two counts followed by the block of each emitted
candidate in ranked order, each value being stored as a `float`. -/
theorem fill_emits_exactly_selected (g : Geometry) (self : SVFiller) (jet : Jet) (jetidx : Nat)
    (pv : Vertex) (pvs : List Vertex) (h : self.vertices = pv :: pvs) :
    (rankSVs g self jet pv).Perm
        (self.SVs.filter fun sv => F.lt (g.deltaR sv jet) self.jetR_)
      ∧ (∀ sv, sv ∈ rankSVs g self jet pv
          ↔ sv ∈ self.SVs ∧ F.lt (g.deltaR sv jet) self.jetR_ = true)
      ∧ (∀ sv, g.deltaR sv jet = self.jetR_ → ¬ sv ∈ rankSVs g self jet pv)
      ∧ written g self jet jetidx
          = Call.fillInt "n_sv" (sizeToInt (rankSVs g self jet pv).length)
            :: Call.fillFloat "nsv" (sizeToFloat (rankSVs g self jet pv).length)
            :: (rankSVs g self jet pv).flatMap (fillSV g jet pv [])
      ∧ (written g self jet jetidx).multi "sv_pt"
          = (rankSVs g self jet pv).map (fun sv => F.toFloat sv.pt) := by
  refine ⟨stdSort_perm _ _, mem_rankSVs g self jet pv, ?_, written_cons g self jet jetidx pv pvs h, ?_⟩
  · intro sv hsv hmem
    have := ((mem_rankSVs g self jet pv sv).1 hmem).2
    rw [hsv, F.lt_irrefl] at this
    exact Bool.noConfusion this
  · rw [multi_written g self jet jetidx pv pvs h]
    exact flatMap_toList_of_some _ _ _ (fun sv => by simp [featureOf])

/-- Witness of C1: a jet at pseudorapidity 0 with radius 0.8 and candidates at
separations 0.5, 0.1 and exactly 0.8, of significances 5, 1 and 3: the first
two are emitted, in this order, and the third is not. -/
theorem fill_emits_exactly_selected_witness :
    (filler0 [pv0] [mkSV (1 / 10) 1 1, mkSV (1 / 2) 5 1, mkSV (8 / 10) 3 1]).vertices = pv0 :: []
      ∧ lineGeometry.deltaR (mkSV (8 / 10) 3 1) jet0
          = (filler0 [pv0] [mkSV (1 / 10) 1 1, mkSV (1 / 2) 5 1, mkSV (8 / 10) 3 1]).jetR_
      ∧ rankSVs lineGeometry
          (filler0 [pv0] [mkSV (1 / 10) 1 1, mkSV (1 / 2) 5 1, mkSV (8 / 10) 3 1]) jet0 pv0
          = [mkSV (1 / 2) 5 1, mkSV (1 / 10) 1 1]
      ∧ ¬ mkSV (8 / 10) 3 1 ∈
          rankSVs lineGeometry
            (filler0 [pv0] [mkSV (1 / 10) 1 1, mkSV (1 / 2) 5 1, mkSV (8 / 10) 3 1]) jet0 pv0 :=
  ⟨rfl, by decide!, by decide!,
    (fill_emits_exactly_selected lineGeometry
      (filler0 [pv0] [mkSV (1 / 10) 1 1, mkSV (1 / 2) 5 1, mkSV (8 / 10) 3 1]) jet0 0 pv0 []
      rfl).2.2.1 (mkSV (8 / 10) 3 1) (by decide!)⟩

theorem sortedInsert_pairwise {α : Type} (comp : α → α → Bool) (R : α → α → Prop) (x : α)
    (l : List α) (hl : l.Pairwise R)
    (h1 : ∀ y ∈ l, comp y x = true → R y x)
    (h2 : ∀ y ∈ l, comp y x = false → R x y)
    (h3 : ∀ y ∈ l, ∀ z ∈ l, R x y → R y z → R x z) :
    (sortedInsert comp x l).Pairwise R := by
  induction l with
  | nil => simp [sortedInsert]
  | cons y ys ih =>
    rw [List.pairwise_cons] at hl
    unfold sortedInsert
    cases hc : comp y x with
    | true =>
      simp only [if_true]
      rw [List.pairwise_cons]
      refine ⟨?_, ih hl.2 (fun z hz => h1 z (List.mem_cons_of_mem _ hz))
        (fun z hz => h2 z (List.mem_cons_of_mem _ hz))
        (fun z hz w hw => h3 z (List.mem_cons_of_mem _ hz) w (List.mem_cons_of_mem _ hw))⟩
      intro z hz
      rcases List.mem_cons.1 ((sortedInsert_perm comp x ys).mem_iff.1 hz) with hzx | hzy
      · rw [hzx]
        exact h1 y (List.mem_cons_self _ _) hc
      · exact hl.1 z hzy
    | false =>
      simp only [Bool.false_eq_true, if_false]
      have hxy : R x y := h2 y (List.mem_cons_self _ _) hc
      rw [List.pairwise_cons]
      refine ⟨?_, List.pairwise_cons.2 hl⟩
      intro z hz
      rcases List.mem_cons.1 hz with hzy | hzy
      · rw [hzy]
        exact hxy
      · exact h3 y (List.mem_cons_self _ _) z (List.mem_cons_of_mem _ hzy) hxy (hl.1 z hzy)

theorem stdSort_sorted_of_key {α : Type} (comp : α → α → Bool) (key : α → ℚ) (l : List α)
    (hcomp : ∀ a ∈ l, ∀ b ∈ l, comp a b = decide (key b < key a)) :
    (stdSort comp l).Pairwise (fun a b => key b ≤ key a) := by
  induction l with
  | nil => simp [stdSort]
  | cons x xs ih =>
    unfold stdSort
    have hmem : ∀ y, y ∈ stdSort comp xs → y ∈ x :: xs := fun y hy =>
      List.mem_cons_of_mem _ ((stdSort_perm comp xs).mem_iff.1 hy)
    have hx : x ∈ x :: xs := List.mem_cons_self _ _
    refine sortedInsert_pairwise comp _ x _
      (ih (fun a ha b hb => hcomp a (List.mem_cons_of_mem _ ha) b (List.mem_cons_of_mem _ hb)))
      ?_ ?_ ?_
    · intro y hy hc
      rw [hcomp y (hmem y hy) x hx] at hc
      exact le_of_lt (of_decide_eq_true hc)
    · intro y hy hc
      rw [hcomp y (hmem y hy) x hx] at hc
      exact not_lt.1 (of_decide_eq_false hc)
    · intro y _ z _ hxy hyz
      exact le_trans hyz hxy

theorem catchInfsAndBound_mono (a b lo hi : ℚ) (c : F) (hab : a ≤ b) (hlh : lo ≤ hi) :
    F.le (catchInfsAndBound (F.fin a) c (F.fin lo) (F.fin hi))
      (catchInfsAndBound (F.fin b) c (F.fin lo) (F.fin hi)) = true := by
  simp only [catchInfsAndBound, F.isFinite, F.lt, F.gt, if_true, decide_eq_true_eq]
  split_ifs <;> simp only [F.le, decide_eq_true_eq] <;> linarith

theorem catchInfsAndBound_fin (q : ℚ) (c : F) (lo hi : ℚ) :
    ∃ r : ℚ, catchInfsAndBound (F.fin q) c (F.fin lo) (F.fin hi) = F.fin r := by
  simp only [catchInfsAndBound, F.isFinite, if_true]
  split_ifs
  · exact ⟨lo, rfl⟩
  · exact ⟨hi, rfl⟩
  · exact ⟨q, rfl⟩

theorem toFloat_catchInfsAndBound_mono (a b lo hi : ℚ) (c : F) (hab : a ≤ b) (hlh : lo ≤ hi) :
    F.le (F.toFloat (catchInfsAndBound (F.fin a) c (F.fin lo) (F.fin hi)))
      (F.toFloat (catchInfsAndBound (F.fin b) c (F.fin lo) (F.fin hi))) = true := by
  have hm := catchInfsAndBound_mono a b lo hi c hab hlh
  obtain ⟨ra, hra⟩ := catchInfsAndBound_fin a c lo hi
  obtain ⟨rb, hrb⟩ := catchInfsAndBound_fin b c lo hi
  rw [hra, hrb] at hm ⊢
  exact F.toFloat_mono (by simpa [F.le] using hm)

theorem pairwise_getElem_of_pairwise {α : Type} (R : α → α → Prop) (l : List α) (h : l.Pairwise R)
    (i j : Nat) (a b : α) (hij : i < j) (ha : l[i]? = some a) (hb : l[j]? = some b) : R a b := by
  obtain ⟨hi, rfl⟩ := List.getElem?_eq_some_iff.1 ha
  obtain ⟨hj, rfl⟩ := List.getElem?_eq_some_iff.1 hb
  exact List.pairwise_iff_getElem.1 h i j hi hj hij

theorem multi_dxysig_written (g : Geometry) (self : SVFiller) (jet : Jet) (jetidx : Nat)
    (pv : Vertex) (pvs : List Vertex) (h : self.vertices = pv :: pvs) :
    (written g self jet jetidx).multi "sv_dxysig"
      = (rankSVs g self jet pv).map (fun sv =>
          F.toFloat (catchInfsAndBound (vertexDxy g sv pv).significance
            (F.fin 0) (F.fin (-1)) (F.fin 800))) := by
  rw [multi_written g self jet jetidx pv pvs h]
  exact flatMap_toList_of_some _ _ _ (fun sv => by simp [featureOf])

theorem rankSVs_sorted_of_finite (g : Geometry) (self : SVFiller) (jet : Jet) (pv : Vertex)
    (hfin : ∀ sv ∈ self.SVs, F.lt (g.deltaR sv jet) self.jetR_ = true →
      (vertexDxy g sv pv).significance.isFinite = true) :
    (rankSVs g self jet pv).Pairwise (fun a b =>
      (vertexDxy g b pv).significance.toRat ≤ (vertexDxy g a pv).significance.toRat) := by
  refine stdSort_sorted_of_key _ (fun sv => (vertexDxy g sv pv).significance.toRat) _ ?_
  intro a ha b hb
  have hfa := hfin a (List.mem_filter.1 ha).1 (List.mem_filter.1 ha).2
  have hfb := hfin b (List.mem_filter.1 hb).1 (List.mem_filter.1 hb).2
  unfold bySignificance
  cases hsa : (vertexDxy g a pv).significance <;> rw [hsa] at hfa <;>
    simp [F.isFinite] at hfa
  cases hsb : (vertexDxy g b pv).significance <;> rw [hsb] at hfb <;>
    simp [F.isFinite] at hfb
  simp [F.gt, F.lt, F.toRat, hsa, hsb]

/-- C2 (counterexample): with two candidates inside the cone, one of
transverse significance plus infinity (displacement 1 with zero uncertainty)
and one of significance 5, the infinite one is ranked first and is written as
0, the other as 5: the emitted sequence `[0, 5]` increases. -/
theorem sv_dxysig_increasing_example :
    (written lineGeometry (filler0 [pv0] [mkSV (1 / 2) 5 1, mkSV (1 / 10) 1 0]) jet0 0).multi
        "sv_dxysig" = [F.fin 0, F.fin 5]
      ∧ (vertexDxy lineGeometry (mkSV (1 / 10) 1 0) pv0).significance = F.pinf
      ∧ (vertexDxy lineGeometry (mkSV (1 / 2) 5 1) pv0).significance = F.fin 5
      ∧ ¬ ∀ (i j : Nat) (a b : F), i < j →
          ((written lineGeometry (filler0 [pv0] [mkSV (1 / 2) 5 1, mkSV (1 / 10) 1 0]) jet0
              0).multi "sv_dxysig")[i]? = some a →
          ((written lineGeometry (filler0 [pv0] [mkSV (1 / 2) 5 1, mkSV (1 / 10) 1 0]) jet0
              0).multi "sv_dxysig")[j]? = some b →
          F.ge a b = true := by
  have hl : (written lineGeometry (filler0 [pv0] [mkSV (1 / 2) 5 1, mkSV (1 / 10) 1 0]) jet0
      0).multi "sv_dxysig" = [F.fin 0, F.fin 5] := by decide!
  refine ⟨hl, by decide!, by decide!, ?_⟩
  intro hall
  have := hall 0 1 (F.fin 0) (F.fin 5) (by decide) (by rw [hl]; rfl) (by rw [hl]; rfl)
  revert this
  decide!

/-- C2 (amended): when the transverse significance of every candidate inside
the cone is finite, the emitted `sv_dxysig` sequence is non-increasing: for
output positions `i < j`, `sv_dxysig[i] >= sv_dxysig[j]`. -/
theorem sv_dxysig_nonincreasing_of_finite (g : Geometry) (self : SVFiller) (jet : Jet)
    (jetidx : Nat) (pv : Vertex) (pvs : List Vertex) (h : self.vertices = pv :: pvs)
    (hfin : ∀ sv ∈ self.SVs, F.lt (g.deltaR sv jet) self.jetR_ = true →
      (vertexDxy g sv pv).significance.isFinite = true) :
    ∀ (i j : Nat) (a b : F), i < j →
      ((written g self jet jetidx).multi "sv_dxysig")[i]? = some a →
      ((written g self jet jetidx).multi "sv_dxysig")[j]? = some b →
      F.ge a b = true := by
  have hsorted := rankSVs_sorted_of_finite g self jet pv hfin
  have hpw : ((written g self jet jetidx).multi "sv_dxysig").Pairwise
      (fun a b => F.ge a b = true) := by
    rw [multi_dxysig_written g self jet jetidx pv pvs h, List.pairwise_map]
    refine List.Pairwise.imp_of_mem ?_ hsorted
    intro a b ha hb hab
    have hfa := hfin a ((mem_rankSVs g self jet pv a).1 ha).1 ((mem_rankSVs g self jet pv a).1 ha).2
    have hfb := hfin b ((mem_rankSVs g self jet pv b).1 hb).1 ((mem_rankSVs g self jet pv b).1 hb).2
    cases hsa : (vertexDxy g a pv).significance <;> rw [hsa] at hfa <;>
      simp [F.isFinite] at hfa
    cases hsb : (vertexDxy g b pv).significance <;> rw [hsb] at hfb <;>
      simp [F.isFinite] at hfb
    rw [hsa, hsb] at hab
    exact toFloat_catchInfsAndBound_mono _ _ _ _ _ hab (by norm_num)
  intro i j a b hij ha hb
  exact pairwise_getElem_of_pairwise _ _ hpw i j a b hij ha hb

/-- Witness of C2 (amended): two candidates inside the cone, of significances
5 and 1. -/
theorem sv_dxysig_nonincreasing_of_finite_witness :
    (filler0 [pv0] [mkSV (1 / 10) 1 1, mkSV (1 / 2) 5 1]).vertices = pv0 :: []
      ∧ (written lineGeometry (filler0 [pv0] [mkSV (1 / 10) 1 1, mkSV (1 / 2) 5 1]) jet0 0).multi
          "sv_dxysig" = [F.fin 5, F.fin 1]
      ∧ F.ge (F.fin 5) (F.fin 1) = true :=
  ⟨rfl, by decide!,
    sv_dxysig_nonincreasing_of_finite lineGeometry
      (filler0 [pv0] [mkSV (1 / 10) 1 1, mkSV (1 / 2) 5 1]) jet0 0 pv0 [] rfl
      (by decide!) 0 1 (F.fin 5) (F.fin 1) (by decide) (by decide!) (by decide!)⟩

theorem scalars_fillSV (g : Geometry) (jet : Jet) (pv : Vertex) (name : String) (sv : SV) :
    TreeData.intScalar (fillSV g jet pv [] sv) name = []
      ∧ TreeData.floatScalar (fillSV g jet pv [] sv) name = [] := by
  simp [fillSV, TreeData.fillMulti, TreeData.intScalar, TreeData.floatScalar]

theorem scalars_flatMap_fillSV (g : Geometry) (jet : Jet) (pv : Vertex) (name : String)
    (l : List SV) :
    TreeData.intScalar (l.flatMap (fillSV g jet pv [])) name = []
      ∧ TreeData.floatScalar (l.flatMap (fillSV g jet pv [])) name = [] := by
  induction l with
  | nil => exact ⟨rfl, rfl⟩
  | cons x xs ih =>
    have hx := scalars_fillSV g jet pv name x
    unfold TreeData.intScalar TreeData.floatScalar at *
    simp only [List.flatMap_cons, List.filterMap_append, hx.1, hx.2, ih.1, ih.2, List.append_nil,
      and_self]

theorem scalars_written (g : Geometry) (self : SVFiller) (jet : Jet) (jetidx : Nat)
    (pv : Vertex) (pvs : List Vertex) (h : self.vertices = pv :: pvs) :
    (written g self jet jetidx).intScalar "n_sv" = [sizeToInt (selectSVs g self jet).length]
      ∧ (written g self jet jetidx).floatScalar "nsv"
          = [sizeToFloat (selectSVs g self jet).length] := by
  have hs := scalars_flatMap_fillSV g jet pv
  rw [written_cons g self jet jetidx pv pvs h, length_rankSVs]
  have h1 := (hs "n_sv" (rankSVs g self jet pv)).1
  have h2 := (hs "nsv" (rankSVs g self jet pv)).2
  unfold TreeData.intScalar TreeData.floatScalar at *
  simp [List.filterMap_cons, h1, h2]

theorem declaredIn_fillSV (g : Geometry) (jet : Jet) (pv : Vertex) (sv : SV) :
    ∀ c ∈ fillSV g jet pv [] sv, Call.declaredIn (book []) c = true := by
  simp [fillSV, TreeData.fillMulti, Call.declaredIn, book, TreeData.multiNames, TreeData.addInt,
    TreeData.addFloat, TreeData.addMulti]

theorem declaredIn_written (g : Geometry) (self : SVFiller) (jet : Jet) (jetidx : Nat) :
    ∀ c ∈ written g self jet jetidx, Call.declaredIn (book []) c = true := by
  cases hv : self.vertices with
  | nil => simp [written, fill, hv]
  | cons pv pvs =>
    rw [written_cons g self jet jetidx pv pvs hv]
    intro c hc
    rcases List.mem_cons.1 hc with rfl | hc
    · simp [Call.declaredIn, book, TreeData.intNames, TreeData.addInt, TreeData.addFloat,
        TreeData.addMulti]
    rcases List.mem_cons.1 hc with rfl | hc
    · simp [Call.declaredIn, book, TreeData.floatNames, TreeData.addInt, TreeData.addFloat,
        TreeData.addMulti]
    obtain ⟨sv, _, hsv⟩ := List.mem_flatMap.1 hc
    exact declaredIn_fillSV g jet pv sv c hsv

theorem featureOf_isSome (g : Geometry) (jet : Jet) (pv : Vertex) (name : String)
    (hname : name ∈ (book []).multiNames) (sv : SV) :
    ∃ v, featureOf g jet pv name sv = some v := by
  simp [book, TreeData.multiNames, TreeData.addInt, TreeData.addFloat, TreeData.addMulti] at hname
  rcases hname with h | h | h | h | h | h | h | h | h | h | h | h | h | h | h | h | h | h <;>
    subst h <;> simp [featureOf]

theorem map_some_flatMap_toList {α β : Type} (f : α → Option β) (l : List α)
    (h : ∀ x ∈ l, ∃ v, f x = some v) :
    (l.flatMap (fun x => (f x).toList)).map some = l.map f := by
  induction l with
  | nil => rfl
  | cons x xs ih =>
    obtain ⟨v, hv⟩ := h x (List.mem_cons_self _ _)
    simp [List.flatMap_cons, hv, ih (fun y hy => h y (List.mem_cons_of_mem _ hy))]

/-- C3: when `fill` completes there is a primary vertex, and the calls made on
the buffer are consistent with `book`: the names declared multi-valued are the
eighteen `sv_ptrel` ... `sv_costhetasvpv`; each of them receives exactly as
many entries as candidates were selected, which is the count written to
`n_sv`; its `k`-th entry is the value of that feature for the `k`-th candidate
of the ranked list; each of the two declared scalars is set once; and every
value written goes to a feature that `book` declares with that arity and
type. -/
theorem fill_fills_every_booked_feature (g : Geometry) (self : SVFiller) (jet : Jet)
    (jetidx : Nat) (b : Bool) (hret : (fill g self jet jetidx).1 = Except.ok b) :
    ∃ pv pvs, self.vertices = pv :: pvs
      ∧ (book []).multiNames =
          ["sv_ptrel", "sv_erel", "sv_phirel", "sv_etarel", "sv_deltaR", "sv_pt", "sv_mass",
            "sv_ntracks", "sv_chi2", "sv_ndf", "sv_normchi2", "sv_dxy", "sv_dxyerr", "sv_dxysig",
            "sv_d3d", "sv_d3derr", "sv_d3dsig", "sv_costhetasvpv"]
      ∧ (book []).intNames = ["n_sv"] ∧ (book []).floatNames = ["nsv"]
      ∧ (rankSVs g self jet pv).length = (selectSVs g self jet).length
      ∧ (∀ name ∈ (book []).multiNames,
          ((written g self jet jetidx).multi name).length = (selectSVs g self jet).length
            ∧ ((written g self jet jetidx).multi name).map some
                = (rankSVs g self jet pv).map (featureOf g jet pv name))
      ∧ (written g self jet jetidx).intScalar "n_sv" = [sizeToInt (selectSVs g self jet).length]
      ∧ (written g self jet jetidx).floatScalar "nsv"
          = [sizeToFloat (selectSVs g self jet).length]
      ∧ (∀ c ∈ written g self jet jetidx, Call.declaredIn (book []) c = true)
      ∧ (written g self jet jetidx).length = 2 + 18 * (selectSVs g self jet).length := by
  cases hv : self.vertices with
  | nil => simp [fill, hv] at hret
  | cons pv pvs =>
    have hmap : ∀ name ∈ (book []).multiNames,
        ((written g self jet jetidx).multi name).map some
          = (rankSVs g self jet pv).map (featureOf g jet pv name) := by
      intro name hname
      rw [multi_written g self jet jetidx pv pvs hv]
      exact map_some_flatMap_toList _ _ (fun sv _ => featureOf_isSome g jet pv name hname sv)
    refine ⟨pv, pvs, rfl, by decide, by decide, by decide, length_rankSVs g self jet pv, ?_,
      (scalars_written g self jet jetidx pv pvs hv).1,
      (scalars_written g self jet jetidx pv pvs hv).2, declaredIn_written g self jet jetidx, ?_⟩
    · intro name hname
      refine ⟨?_, hmap name hname⟩
      have := congrArg List.length (hmap name hname)
      simpa [length_rankSVs] using this
    · rw [written_cons g self jet jetidx pv pvs hv]
      have hlen : ∀ l : List SV, (l.flatMap (fillSV g jet pv [])).length = 18 * l.length := by
        intro l
        induction l with
        | nil => rfl
        | cons x xs ih =>
          simp only [List.flatMap_cons, List.length_append, ih, List.length_cons]
          simp [fillSV, TreeData.fillMulti]
          omega
      simp only [List.length_cons, hlen, length_rankSVs]
      omega

/-- Witness of C3: the scenario of a jet with two candidates inside the
cone. -/
theorem fill_fills_every_booked_feature_witness :
    (fill lineGeometry (filler0 [pv0] [mkSV (1 / 10) 1 1, mkSV (1 / 2) 5 1]) jet0 0).1
        = Except.ok true
      ∧ (written lineGeometry (filler0 [pv0] [mkSV (1 / 10) 1 1, mkSV (1 / 2) 5 1]) jet0
          0).intScalar "n_sv" = [2]
      ∧ (written lineGeometry (filler0 [pv0] [mkSV (1 / 10) 1 1, mkSV (1 / 2) 5 1]) jet0
          0).length = 38 := by
  have hret : (fill lineGeometry (filler0 [pv0] [mkSV (1 / 10) 1 1, mkSV (1 / 2) 5 1]) jet0 0).1
      = Except.ok true := rfl
  obtain ⟨_, _, _, _, _, _, _, _, hn, _, _, hlen⟩ :=
    fill_fills_every_booked_feature lineGeometry
      (filler0 [pv0] [mkSV (1 / 10) 1 1, mkSV (1 / 2) 5 1]) jet0 0 true hret
  have h2 : (selectSVs lineGeometry (filler0 [pv0] [mkSV (1 / 10) 1 1, mkSV (1 / 2) 5 1])
      jet0).length = 2 := by decide!
  rw [h2] at hn hlen
  exact ⟨hret, hn, hlen⟩

theorem roundToFloat_of_lt (n : Nat) (h : n < 2 ^ 24) : roundToFloat n = n := by
  have he : excessBits n n = 0 := by
    cases n with
    | zero => rfl
    | succ k =>
      have hk : k + 1 < 2 ^ 24 := h
      simp only [excessBits, if_pos hk]
  simp only [roundToFloat, he, pow_zero, Nat.mod_one, Nat.div_one, Nat.mul_zero, Nat.mul_one]
  simp

theorem roundToFloat_of_le (n : Nat) (h : n ≤ 2 ^ 24) : roundToFloat n = n := by
  rcases Nat.lt_or_ge n (2 ^ 24) with hlt | hge
  · exact roundToFloat_of_lt n hlt
  · have : n = 2 ^ 24 := Nat.le_antisymm h hge
    subst this
    decide

theorem sizeToInt_of_lt (n : Nat) (h : n < 2 ^ 31) : sizeToInt n = (n : Int) := by
  have h1 : n % 2 ^ 32 = n := Nat.mod_eq_of_lt (by omega)
  have hdef : sizeToInt n
      = if n % 2 ^ 32 < 2 ^ 31 then ((n % 2 ^ 32 : Nat) : Int)
        else ((n % 2 ^ 32 : Nat) : Int) - 2 ^ 32 := rfl
  rw [hdef, h1, if_pos h]

/-- C4 (counterexample): with 16777217 identical candidates inside the cone,
`n_sv` is set to 16777217 and `nsv` to 16777216. -/
theorem n_sv_nsv_differ_example :
    (written lineGeometry (filler0 [pv0] (List.replicate 16777217 (mkSV (1 / 10) 1 1))) jet0
        0).intScalar "n_sv" = [16777217]
      ∧ (written lineGeometry (filler0 [pv0] (List.replicate 16777217 (mkSV (1 / 10) 1 1))) jet0
          0).floatScalar "nsv" = [F.fin 16777216]
      ∧ F.fin 16777216 ≠ F.fin ((16777217 : Int) : ℚ) := by
  have hsel : (selectSVs lineGeometry
      (filler0 [pv0] (List.replicate 16777217 (mkSV (1 / 10) 1 1))) jet0).length = 16777217 := by
    have hp : F.lt (lineGeometry.deltaR (mkSV (1 / 10) 1 1) jet0) (F.fin (8 / 10)) = true := by
      decide!
    have hall : List.filter (fun sv => F.lt (lineGeometry.deltaR sv jet0) (F.fin (8 / 10)))
        (List.replicate 16777217 (mkSV (1 / 10) 1 1))
          = List.replicate 16777217 (mkSV (1 / 10) 1 1) := by
      rw [List.filter_eq_self]
      intro a ha
      rw [List.eq_of_mem_replicate ha]
      exact hp
    show (List.filter (fun sv => F.lt (lineGeometry.deltaR sv jet0) (F.fin (8 / 10)))
        (List.replicate 16777217 (mkSV (1 / 10) 1 1))).length = 16777217
    rw [hall, List.length_replicate]
  have hs := scalars_written lineGeometry
    (filler0 [pv0] (List.replicate 16777217 (mkSV (1 / 10) 1 1))) jet0 0 pv0 [] rfl
  rw [hsel] at hs
  have hi : sizeToInt 16777217 = 16777217 := by decide
  have hf : sizeToFloat 16777217 = F.fin 16777216 := by decide!
  rw [hi, hf] at hs
  refine ⟨hs.1, hs.2, ?_⟩
  intro heq
  injection heq with heq
  norm_num at heq

/-- C4 (amended): when at most `2 ^ 24 = 16777216` candidates are selected,
the integer written to `n_sv` and the float written to `nsv` are numerically
equal, both being the number of selected candidates. -/
theorem n_sv_eq_nsv_of_le (g : Geometry) (self : SVFiller) (jet : Jet) (jetidx : Nat)
    (pv : Vertex) (pvs : List Vertex) (h : self.vertices = pv :: pvs)
    (hn : (selectSVs g self jet).length ≤ 2 ^ 24) :
    (written g self jet jetidx).intScalar "n_sv" = [((selectSVs g self jet).length : Int)]
      ∧ (written g self jet jetidx).floatScalar "nsv"
          = [F.fin (((selectSVs g self jet).length : Int) : ℚ)] := by
  have hs := scalars_written g self jet jetidx pv pvs h
  rw [sizeToInt_of_lt _ (by omega), sizeToFloat, roundToFloat_of_le _ hn] at hs
  exact ⟨hs.1, by simpa using hs.2⟩

/-- Witness of C4 (amended): two candidates inside the cone. -/
theorem n_sv_eq_nsv_of_le_witness :
    (filler0 [pv0] [mkSV (1 / 10) 1 1, mkSV (1 / 2) 5 1]).vertices = pv0 :: []
      ∧ (selectSVs lineGeometry (filler0 [pv0] [mkSV (1 / 10) 1 1, mkSV (1 / 2) 5 1])
          jet0).length = 2
      ∧ (written lineGeometry (filler0 [pv0] [mkSV (1 / 10) 1 1, mkSV (1 / 2) 5 1]) jet0
          0).intScalar "n_sv" = [2]
      ∧ (written lineGeometry (filler0 [pv0] [mkSV (1 / 10) 1 1, mkSV (1 / 2) 5 1]) jet0
          0).floatScalar "nsv" = [F.fin 2] := by
  have h2 : (selectSVs lineGeometry (filler0 [pv0] [mkSV (1 / 10) 1 1, mkSV (1 / 2) 5 1])
      jet0).length = 2 := by decide!
  have hw := n_sv_eq_nsv_of_le lineGeometry
    (filler0 [pv0] [mkSV (1 / 10) 1 1, mkSV (1 / 2) 5 1]) jet0 0 pv0 [] rfl
    (by rw [h2]; decide)
  rw [h2] at hw
  exact ⟨rfl, h2, hw.1, by simpa using hw.2⟩

/-- C5: for bounds `lo <= hi` and any `c`, the sanitizer returns `c` for NaN
and for either infinity, `lo` for a finite `x < lo`, `hi` for a finite
`x > hi`, and `x` itself for a finite `x` with `lo <= x <= hi`. -/
theorem catchInfsAndBound_spec (c lo hi : F) (hle : F.le lo hi = true) :
    catchInfsAndBound F.nan c lo hi = c
      ∧ catchInfsAndBound F.pinf c lo hi = c
      ∧ catchInfsAndBound F.ninf c lo hi = c
      ∧ (∀ q : ℚ, F.lt (F.fin q) lo = true → catchInfsAndBound (F.fin q) c lo hi = lo)
      ∧ (∀ q : ℚ, F.gt (F.fin q) hi = true → catchInfsAndBound (F.fin q) c lo hi = hi)
      ∧ (∀ q : ℚ, F.le lo (F.fin q) = true → F.le (F.fin q) hi = true →
          catchInfsAndBound (F.fin q) c lo hi = F.fin q) := by
  refine ⟨rfl, rfl, rfl, ?_, ?_, ?_⟩
  · intro q hq
    simp [catchInfsAndBound, F.isFinite, hq]
  · intro q hq
    cases lo <;> cases hi <;>
      simp_all [catchInfsAndBound, F.isFinite, F.lt, F.gt, F.le]
    intro hlt
    linarith
  · intro q h1 h2
    cases lo <;> cases hi <;>
      simp_all [catchInfsAndBound, F.isFinite, F.lt, F.gt, F.le]
    rw [if_neg (not_lt.2 h1), if_neg (not_lt.2 h2)]

/-- Witness of C5: the bounds of `sv_dxysig`, center 0 and interval
`[-1, 800]`. -/
theorem catchInfsAndBound_spec_witness :
    F.le (F.fin (-1)) (F.fin 800) = true
      ∧ catchInfsAndBound F.nan (F.fin 0) (F.fin (-1)) (F.fin 800) = F.fin 0
      ∧ catchInfsAndBound (F.fin 1000) (F.fin 0) (F.fin (-1)) (F.fin 800) = F.fin 800 :=
  ⟨by decide!,
    (catchInfsAndBound_spec (F.fin 0) (F.fin (-1)) (F.fin 800) (by decide!)).1,
    (catchInfsAndBound_spec (F.fin 0) (F.fin (-1)) (F.fin 800) (by decide!)).2.2.2.2.1 1000
      (by decide!)⟩

theorem int_log_two_eq (a : ℚ) (e : ℤ) (h1 : 2 ^ e ≤ a) (h2 : a < 2 ^ (e + 1)) :
    Int.log 2 a = e := by
  have ha : 0 < a := lt_of_lt_of_le (two_zpow_pos e) h1
  have hle : e ≤ Int.log 2 a := by
    rw [← Int.zpow_le_iff_le_log (by norm_num) ha, Nat.cast_ofNat]
    exact h1
  have hlt : Int.log 2 a < e + 1 := by
    rw [← Int.lt_zpow_iff_log_lt (by norm_num) ha, Nat.cast_ofNat]
    exact h2
  omega

theorem roundMag_scaled (k : ℕ) (emin : ℤ) (m s : ℤ) (hm1 : 2 ^ k ≤ m) (hm2 : m < 2 ^ (k + 1))
    (hs : emin ≤ s + k) : roundMag k emin ((m : ℚ) * 2 ^ s) = (m : ℚ) * 2 ^ s := by
  have hu := two_zpow_pos s
  have h1 : (2 : ℚ) ^ (s + k) ≤ (m : ℚ) * 2 ^ s := by
    have : (2 : ℚ) ^ (s + k) = 2 ^ k * 2 ^ s := by
      rw [← zpow_natCast, ← zpow_add₀ (by norm_num)]
      congr 1
      ring
    rw [this]
    have hm : (2 : ℚ) ^ k ≤ (m : ℚ) := by exact_mod_cast hm1
    exact mul_le_mul_of_nonneg_right hm (le_of_lt hu)
  have h2 : (m : ℚ) * 2 ^ s < 2 ^ (s + k + 1) := by
    have : (2 : ℚ) ^ (s + k + 1) = 2 ^ (k + 1) * 2 ^ s := by
      rw [← zpow_natCast, ← zpow_add₀ (by norm_num)]
      congr 1
      push_cast
      ring
    rw [this]
    have hm : (m : ℚ) < (2 : ℚ) ^ (k + 1) := by exact_mod_cast hm2
    exact mul_lt_mul_of_pos_right hm hu
  have he : binExp emin ((m : ℚ) * 2 ^ s) = s + k := by
    unfold binExp
    rw [int_log_two_eq _ _ h1 h2]
    omega
  unfold roundMag
  rw [he]
  have hsk : s + (k : ℤ) - k = s := by ring
  rw [hsk, mul_div_assoc, div_self (ne_of_gt hu), mul_one, roundHalfEven_intCast]

theorem F.roundTo_fixed (k : ℕ) (emin emax : ℤ) (a : ℚ) (m s : ℤ) (ha : a = (m : ℚ) * 2 ^ s)
    (hm1 : 2 ^ k ≤ m) (hm2 : m < 2 ^ (k + 1)) (hs : emin ≤ s + k) (hmax : a < 2 ^ emax) :
    F.roundTo k emin emax (F.fin a) = F.fin a
      ∧ F.roundTo k emin emax (F.fin (-a)) = F.fin (-a) := by
  have hr : roundMag k emin a = a := by
    rw [ha]
    exact roundMag_scaled k emin m s hm1 hm2 hs
  have hpos : 0 < a := by
    rw [ha]
    have hm : (0 : ℚ) < (m : ℚ) := by
      have : (0 : ℤ) < m := lt_of_lt_of_le (by positivity) hm1
      exact_mod_cast this
    exact mul_pos hm (two_zpow_pos s)
  have hp : F.roundTo k emin emax (F.fin a) = F.fin a := by
    simp only [F.roundTo, if_pos (le_of_lt hpos), hr, if_neg (not_le.2 hmax)]
  refine ⟨hp, ?_⟩
  have := F.roundTo_neg k emin emax (F.fin a)
  rw [hp] at this
  exact this

theorem F.roundTo_zero (k : ℕ) (emin emax : ℤ) :
    F.roundTo k emin emax (F.fin 0) = F.fin 0 := by
  simp [F.roundTo, roundMag_zero, not_le.2 (two_zpow_pos emax)]

theorem toFloat_bounds_fixed :
    F.toFloat (F.fin 0) = F.fin 0
      ∧ F.toFloat (F.fin (-1)) = F.fin (-1)
      ∧ F.toFloat (F.fin (-2)) = F.fin (-2)
      ∧ F.toFloat (F.fin 800) = F.fin 800
      ∧ F.toFloat (F.fin 1000) = F.fin 1000
      ∧ F.toFloat (F.fin (-1000)) = F.fin (-1000)
      ∧ F.toFloat (F.fin (-(1 / 2))) = F.fin (-(1 / 2)) := by
  refine ⟨F.roundTo_zero _ _ _, ?_, ?_, ?_, ?_, ?_, ?_⟩
  · exact (F.roundTo_fixed 23 (-126) 128 1 (2 ^ 23) (-23) (by norm_num) (by norm_num)
      (by norm_num) (by norm_num) (by norm_num)).2
  · exact (F.roundTo_fixed 23 (-126) 128 2 (2 ^ 23) (-22) (by norm_num) (by norm_num)
      (by norm_num) (by norm_num) (by norm_num)).2
  · exact (F.roundTo_fixed 23 (-126) 128 800 13107200 (-14) (by norm_num) (by norm_num)
      (by norm_num) (by norm_num) (by norm_num)).1
  · exact (F.roundTo_fixed 23 (-126) 128 1000 16384000 (-14) (by norm_num) (by norm_num)
      (by norm_num) (by norm_num) (by norm_num)).1
  · exact (F.roundTo_fixed 23 (-126) 128 1000 16384000 (-14) (by norm_num) (by norm_num)
      (by norm_num) (by norm_num) (by norm_num)).2
  · exact (F.roundTo_fixed 23 (-126) 128 (1 / 2) (2 ^ 23) (-24) (by norm_num) (by norm_num)
      (by norm_num) (by norm_num) (by norm_num)).2

theorem toDouble_bounds_fixed :
    F.toDouble (F.fin 0) = F.fin 0
      ∧ F.toDouble (F.fin (-(1 / 2))) = F.fin (-(1 / 2))
      ∧ F.toDouble (F.fin (1 / 2)) = F.fin (1 / 2) := by
  refine ⟨F.roundTo_zero _ _ _, ?_, ?_⟩
  · exact (F.roundTo_fixed 52 (-1022) 1024 (1 / 2) (2 ^ 52) (-53) (by norm_num) (by norm_num)
      (by norm_num) (by norm_num) (by norm_num)).2
  · exact (F.roundTo_fixed 52 (-1022) 1024 (1 / 2) (2 ^ 52) (-53) (by norm_num) (by norm_num)
      (by norm_num) (by norm_num) (by norm_num)).1

theorem catchInfsAndBound_bounded (x : F) (c lo hi : ℚ) (h1 : lo ≤ c) (h2 : c ≤ hi) :
    (catchInfsAndBound x (F.fin c) (F.fin lo) (F.fin hi)).isFinite = true
      ∧ F.le (F.fin lo) (catchInfsAndBound x (F.fin c) (F.fin lo) (F.fin hi)) = true
      ∧ F.le (catchInfsAndBound x (F.fin c) (F.fin lo) (F.fin hi)) (F.fin hi) = true := by
  cases x with
  | nan => simp [catchInfsAndBound, F.isFinite, F.le, h1, h2]
  | ninf => simp [catchInfsAndBound, F.isFinite, F.le, h1, h2]
  | pinf => simp [catchInfsAndBound, F.isFinite, F.le, h1, h2]
  | fin q =>
    simp only [catchInfsAndBound, F.isFinite, F.lt, F.gt, if_true, decide_eq_true_eq]
    split_ifs with ha hb
    · simp [F.isFinite, F.le]
      linarith
    · simp [F.isFinite, F.le]
      linarith
    · simp only [F.isFinite, F.le, decide_eq_true_eq, true_and]
      exact ⟨not_lt.1 ha, not_lt.1 hb⟩

theorem toFloat_catchInfsAndBound_bounded (x : F) (c lo hi : ℚ) (h1 : lo ≤ c) (h2 : c ≤ hi)
    (hlo : F.toFloat (F.fin lo) = F.fin lo) (hhi : F.toFloat (F.fin hi) = F.fin hi) :
    (F.toFloat (catchInfsAndBound x (F.fin c) (F.fin lo) (F.fin hi))).isFinite = true
      ∧ F.le (F.fin lo) (F.toFloat (catchInfsAndBound x (F.fin c) (F.fin lo) (F.fin hi))) = true
      ∧ F.le (F.toFloat (catchInfsAndBound x (F.fin c) (F.fin lo) (F.fin hi))) (F.fin hi)
          = true := by
  obtain ⟨hf, hl, hh⟩ := catchInfsAndBound_bounded x c lo hi h1 h2
  exact F.toFloat_between lo hi _ hlo hhi hf hl hh

theorem mem_multi_written (g : Geometry) (self : SVFiller) (jet : Jet) (jetidx : Nat)
    (name : String) (v : F) (hv : v ∈ (written g self jet jetidx).multi name) :
    ∃ pv pvs sv, self.vertices = pv :: pvs ∧ sv ∈ rankSVs g self jet pv
      ∧ featureOf g jet pv name sv = some v := by
  cases hvs : self.vertices with
  | nil => simp [written, fill, hvs, TreeData.multi] at hv
  | cons pv pvs =>
    rw [multi_written g self jet jetidx pv pvs hvs] at hv
    obtain ⟨sv, hsv, hmem⟩ := List.mem_flatMap.1 hv
    refine ⟨pv, pvs, sv, rfl, hsv, ?_⟩
    cases hf : featureOf g jet pv name sv with
    | none => simp [hf] at hmem
    | some w =>
      simp [hf] at hmem
      rw [hmem]

/-- C6: whatever the inputs, every entry that `fill` writes to the four
sanitized features is finite and within its bounds: `sv_deltaR` in `[-2, 0]`,
`sv_normchi2` in `[-1000, 1000]`, `sv_dxysig` and `sv_d3dsig` in
`[-1, 800]`. -/
theorem sanitized_features_bounded (g : Geometry) (self : SVFiller) (jet : Jet) (jetidx : Nat) :
    (∀ v ∈ (written g self jet jetidx).multi "sv_deltaR",
        v.isFinite = true ∧ F.le (F.fin (-2)) v = true ∧ F.le v (F.fin 0) = true)
      ∧ (∀ v ∈ (written g self jet jetidx).multi "sv_normchi2",
        v.isFinite = true ∧ F.le (F.fin (-1000)) v = true ∧ F.le v (F.fin 1000) = true)
      ∧ (∀ v ∈ (written g self jet jetidx).multi "sv_dxysig",
        v.isFinite = true ∧ F.le (F.fin (-1)) v = true ∧ F.le v (F.fin 800) = true)
      ∧ (∀ v ∈ (written g self jet jetidx).multi "sv_d3dsig",
        v.isFinite = true ∧ F.le (F.fin (-1)) v = true ∧ F.le v (F.fin 800) = true) := by
  refine ⟨?_, ?_, ?_, ?_⟩ <;> intro v hv <;>
    obtain ⟨pv, pvs, sv, _, _, hf⟩ := mem_multi_written g self jet jetidx _ v hv <;>
    simp [featureOf] at hf <;> rw [← hf]
  · exact toFloat_catchInfsAndBound_bounded _ 0 (-2) 0 (by norm_num) (by norm_num)
      toFloat_bounds_fixed.2.2.1 toFloat_bounds_fixed.1
  · exact toFloat_catchInfsAndBound_bounded _ 1000 (-1000) 1000 (by norm_num) (by norm_num)
      toFloat_bounds_fixed.2.2.2.2.2.1 toFloat_bounds_fixed.2.2.2.2.1
  · exact toFloat_catchInfsAndBound_bounded _ 0 (-1) 800 (by norm_num) (by norm_num)
      toFloat_bounds_fixed.2.1 toFloat_bounds_fixed.2.2.2.1
  · exact toFloat_catchInfsAndBound_bounded _ 0 (-1) 800 (by norm_num) (by norm_num)
      toFloat_bounds_fixed.2.1 toFloat_bounds_fixed.2.2.2.1

/-- A degenerate candidate: zero degrees of freedom and zero position
uncertainty, so that the normalized chi-square and both significances are
plus infinity; the sanitizer turns the first into 1000 and the entries written
for the other two are 0. -/
theorem sanitized_features_degenerate_example :
    ({ mkSV (1 / 10) 1 0 with vertexNdof := F.fin 0 } : SV).vertexNormalizedChi2 = F.pinf
      ∧ (vertexDxy lineGeometry { mkSV (1 / 10) 1 0 with vertexNdof := F.fin 0 }
          pv0).significance = F.pinf
      ∧ catchInfsAndBound
          ({ mkSV (1 / 10) 1 0 with vertexNdof := F.fin 0 } : SV).vertexNormalizedChi2
          (F.fin 1000) (F.fin (-1000)) (F.fin 1000) = F.fin 1000
      ∧ (written lineGeometry
          (filler0 [pv0] [{ mkSV (1 / 10) 1 0 with vertexNdof := F.fin 0 }]) jet0 0).multi
            "sv_dxysig" = [F.fin 0]
      ∧ (written lineGeometry
          (filler0 [pv0] [{ mkSV (1 / 10) 1 0 with vertexNdof := F.fin 0 }]) jet0 0).multi
            "sv_d3dsig" = [F.fin 0] := by
  refine ⟨by decide!, by decide!, by decide!, by decide!, by decide!⟩

/-- C7: with an empty primary-vertex collection `fill` ends with the
exception `std::out_of_range` and has made no call on the output buffer: the
buffer is the one it started with, whatever the candidates. -/
theorem fill_fails_without_primary_vertex (g : Geometry) (self : SVFiller) (jet : Jet)
    (jetidx : Nat) (h : self.vertices = []) :
    fill g self jet jetidx = (Except.error FillError.outOfRange, self.data)
      ∧ written g self jet jetidx = [] := by
  have hf : fill g self jet jetidx = (Except.error FillError.outOfRange, self.data) := by
    simp [fill, h]
  exact ⟨hf, by simp [written, hf]⟩

/-- Witness of C7: no primary vertex and three candidates. -/
theorem fill_fails_without_primary_vertex_witness :
    (filler0 [] [mkSV (1 / 2) 5 1, mkSV (1 / 10) 1 1, mkSV (8 / 10) 3 1]).vertices = []
      ∧ fill lineGeometry (filler0 [] [mkSV (1 / 2) 5 1, mkSV (1 / 10) 1 1, mkSV (8 / 10) 3 1])
          jet0 0 = (Except.error FillError.outOfRange, [])
      ∧ written lineGeometry (filler0 [] [mkSV (1 / 2) 5 1, mkSV (1 / 10) 1 1, mkSV (8 / 10) 3 1])
          jet0 0 = [] :=
  ⟨rfl,
    fill_fails_without_primary_vertex lineGeometry
      (filler0 [] [mkSV (1 / 2) 5 1, mkSV (1 / 10) 1 1, mkSV (8 / 10) 3 1]) jet0 0 rfl⟩

theorem F.sub_neg_neg (a b : F) : F.sub (F.neg a) (F.neg b) = F.neg (F.sub a b) := by
  cases a <;> cases b <;> simp [F.sub, F.neg]
  ring

theorem F.mul_neg_neg (a b : F) : F.mul (F.neg a) (F.neg b) = F.mul a b := by
  cases a <;> cases b <;> simp [F.mul, F.neg] <;>
    split_ifs <;> first | rfl | (exfalso; linarith)

theorem etasign_mirror (jet : Jet) (h0 : jet.eta ≠ F.fin 0) (hn : jet.eta ≠ F.nan) :
    etasign jet.mirror = F.neg (etasign jet) := by
  obtain ⟨jpt, jeta, jphi, je⟩ := jet
  simp only at h0 hn
  cases jeta with
  | nan => exact absurd rfl hn
  | ninf => simp [etasign, Jet.mirror, F.neg, F.gt, F.lt]
  | pinf => simp [etasign, Jet.mirror, F.neg, F.gt, F.lt]
  | fin j =>
    have hj : j ≠ 0 := fun hj => h0 (by rw [hj])
    rcases lt_or_gt_of_ne hj with hneg | hpos
    · have h1 : ¬ (0 < j) := not_lt.2 (le_of_lt hneg)
      simp [etasign, Jet.mirror, F.neg, F.gt, F.lt, h1, hneg]
    · have h1 : ¬ (j < 0) := not_lt.2 (le_of_lt hpos)
      simp [etasign, Jet.mirror, F.neg, F.gt, F.lt, h1, hpos]

/-- C8 (counterexample): for a jet at pseudorapidity 0 and a candidate at
pseudorapidity 1, `etarel` is -1, and for the mirrored pair it is 1. -/
theorem etarel_not_symmetric_at_zero :
    etarel jet0 (mkSV 1 1 1) = F.fin (-1)
      ∧ etarel jet0.mirror (mkSV 1 1 1).mirror = F.fin 1
      ∧ etarel jet0 (mkSV 1 1 1) ≠ etarel jet0.mirror (mkSV 1 1 1).mirror := by
  refine ⟨by decide!, by decide!, by decide!⟩

/-- C8 (amended): for every jet whose pseudorapidity is not 0 and every
candidate, `etarel` is unchanged when both pseudorapidities are negated. -/
theorem etarel_mirror (jet : Jet) (sv : SV) (h : jet.eta ≠ F.fin 0) :
    etarel jet sv = etarel jet.mirror sv.mirror := by
  by_cases hn : jet.eta = F.nan
  · have hm : jet.mirror.eta = F.nan := by simp [Jet.mirror, hn, F.neg]
    have hs : ∀ x : F, F.sub x F.nan = F.nan := fun x => by cases x <;> rfl
    have hmul : ∀ x : F, F.mul x F.nan = F.nan := fun x => by cases x <;> rfl
    have hd : F.toDouble F.nan = F.nan := rfl
    simp only [etarel, F.dmul, F.dsub, hn, hm, hs, hmul, hd]
  · have he := etasign_mirror jet h hn
    have hsub : F.sub sv.mirror.eta jet.mirror.eta = F.neg (F.sub sv.eta jet.eta) :=
      F.sub_neg_neg sv.eta jet.eta
    simp only [etarel, F.dmul, F.dsub, he, hsub, F.toDouble_neg, F.mul_neg_neg]

/-- Witness of C8 (amended): a jet at pseudorapidity -1/2 and a candidate at
pseudorapidity 1. -/
theorem etarel_mirror_witness :
    ({ jet0 with eta := F.fin (-1 / 2) } : Jet).eta ≠ F.fin 0
      ∧ etarel { jet0 with eta := F.fin (-1 / 2) } (mkSV 1 1 1)
          = etarel ({ jet0 with eta := F.fin (-1 / 2) } : Jet).mirror (mkSV 1 1 1).mirror :=
  ⟨by decide!, etarel_mirror { jet0 with eta := F.fin (-1 / 2) } (mkSV 1 1 1) (by decide!)⟩

theorem multi_deltaR_written (g : Geometry) (self : SVFiller) (jet : Jet) (jetidx : Nat)
    (pv : Vertex) (pvs : List Vertex) (h : self.vertices = pv :: pvs) :
    (written g self jet jetidx).multi "sv_deltaR"
      = (rankSVs g self jet pv).map (fun sv =>
          F.toFloat (catchInfsAndBound (F.dsub (F.abs (g.deltaR sv jet)) (F.fin (1 / 2)))
            (F.fin 0) (F.fin (-2)) (F.fin 0))) := by
  rw [multi_written g self jet jetidx pv pvs h]
  exact flatMap_toList_of_some _ _ _ (fun sv => by simp [featureOf])

theorem toDouble_three_tenths :
    F.toDouble (F.fin (3 / 10)) = F.fin (5404319552844595 / 18014398509481984) := by
  decide!

/-- The entry of `sv_deltaR` for a separation `d` with `0 <= d < 0.8`: the
value before clipping is the `double` nearest to `d - 0.5`, it lies in
`[-0.5, 0.3)`, and the entry is its conversion to `float` when `d <= 0.5` and
0 otherwise, within `[-0.5, 0]`. -/
theorem sv_deltaR_entry (d : ℚ) (h0 : 0 ≤ d) (h8 : d < 8 / 10) :
    F.dsub (F.abs (F.fin d)) (F.fin (1 / 2)) = F.toDouble (F.fin (d - 1 / 2))
      ∧ F.le (F.fin (-(1 / 2))) (F.dsub (F.abs (F.fin d)) (F.fin (1 / 2))) = true
      ∧ F.lt (F.dsub (F.abs (F.fin d)) (F.fin (1 / 2))) (F.fin (3 / 10)) = true
      ∧ F.toFloat (catchInfsAndBound (F.dsub (F.abs (F.fin d)) (F.fin (1 / 2)))
            (F.fin 0) (F.fin (-2)) (F.fin 0))
          = (if d ≤ 1 / 2 then F.toFloat (F.toDouble (F.fin (d - 1 / 2))) else F.fin 0)
      ∧ (F.toFloat (catchInfsAndBound (F.dsub (F.abs (F.fin d)) (F.fin (1 / 2)))
            (F.fin 0) (F.fin (-2)) (F.fin 0))).isFinite = true
      ∧ F.le (F.fin (-(1 / 2)))
          (F.toFloat (catchInfsAndBound (F.dsub (F.abs (F.fin d)) (F.fin (1 / 2)))
            (F.fin 0) (F.fin (-2)) (F.fin 0))) = true
      ∧ F.le (F.toFloat (catchInfsAndBound (F.dsub (F.abs (F.fin d)) (F.fin (1 / 2)))
            (F.fin 0) (F.fin (-2)) (F.fin 0))) (F.fin 0) = true := by
  have hpre : F.dsub (F.abs (F.fin d)) (F.fin (1 / 2)) = F.toDouble (F.fin (d - 1 / 2)) := by
    simp [F.dsub, F.abs, F.sub, abs_of_nonneg h0]
  rw [hpre]
  obtain ⟨hfin, hlo, _⟩ := F.toDouble_between (-(1 / 2)) (1 / 2) (F.fin (d - 1 / 2))
    toDouble_bounds_fixed.2.1 toDouble_bounds_fixed.2.2 rfl
    (by simp only [F.le, decide_eq_true_eq]; linarith)
    (by simp only [F.le, decide_eq_true_eq]; linarith)
  have hup : F.le (F.toDouble (F.fin (d - 1 / 2))) (F.toDouble (F.fin (3 / 10))) = true :=
    F.toDouble_mono (by linarith)
  rw [toDouble_three_tenths] at hup
  cases hr : F.toDouble (F.fin (d - 1 / 2)) with
  | nan => rw [hr] at hfin; simp [F.isFinite] at hfin
  | ninf => rw [hr] at hfin; simp [F.isFinite] at hfin
  | pinf => rw [hr] at hfin; simp [F.isFinite] at hfin
  | fin r =>
    rw [hr] at hlo hup
    have hr1 : -(1 / 2) ≤ r := by simpa [F.le] using hlo
    have hr2 : r ≤ 5404319552844595 / 18014398509481984 := by simpa [F.le] using hup
    have hr3 : r < 3 / 10 := lt_of_le_of_lt hr2 (by norm_num)
    have hlow : ¬ (r < -2) := by linarith
    by_cases hd : d ≤ 1 / 2
    · have hz : F.le (F.toDouble (F.fin (d - 1 / 2))) (F.toDouble (F.fin 0)) = true :=
        F.toDouble_mono (by linarith)
      rw [hr, toDouble_bounds_fixed.1] at hz
      have hr0 : r ≤ 0 := by simpa [F.le] using hz
      have hcib : catchInfsAndBound (F.fin r) (F.fin 0) (F.fin (-2)) (F.fin 0) = F.fin r := by
        simp only [catchInfsAndBound, F.isFinite, F.lt, F.gt, if_true, decide_eq_true_eq]
        rw [if_neg hlow, if_neg (not_lt.2 hr0)]
      obtain ⟨b1, b2, b3⟩ := F.toFloat_between (-(1 / 2)) 0 (F.fin r)
        toFloat_bounds_fixed.2.2.2.2.2.2 toFloat_bounds_fixed.1 rfl
        (by simp only [F.le, decide_eq_true_eq]; exact hr1)
        (by simp only [F.le, decide_eq_true_eq]; exact hr0)
      rw [hcib, if_pos hd]
      exact ⟨rfl, by simpa [F.le] using hr1, by simpa [F.lt] using hr3, rfl, b1, b2, b3⟩
    · have hz : F.le (F.toDouble (F.fin 0)) (F.toDouble (F.fin (d - 1 / 2))) = true :=
        F.toDouble_mono (by linarith)
      rw [hr, toDouble_bounds_fixed.1] at hz
      have hr0 : 0 ≤ r := by simpa [F.le] using hz
      have hcib : catchInfsAndBound (F.fin r) (F.fin 0) (F.fin (-2)) (F.fin 0) = F.fin 0 := by
        simp only [catchInfsAndBound, F.isFinite, F.lt, F.gt, if_true, decide_eq_true_eq]
        rw [if_neg hlow]
        rcases eq_or_lt_of_le hr0 with hr00 | hrpos
        · rw [if_neg (by rw [← hr00]; exact lt_irrefl 0), ← hr00]
        · rw [if_pos hrpos]
      rw [hcib, if_neg hd, toFloat_bounds_fixed.1]
      refine ⟨rfl, by simpa [F.le] using hr1, by simpa [F.lt] using hr3, rfl, rfl, ?_, ?_⟩
      · simp [F.le]
      · simp [F.le]

/-- C9 (counterexample): a candidate at separation `1/4 - 2^-30`, below 0.5:
the entry written to `sv_deltaR` is `-1/4`, the `float` nearest to
`deltaR - 0.5 = -(1/4 + 2^-30)`, not `deltaR - 0.5` itself. -/
theorem sv_deltaR_entry_rounded_example :
    lineGeometry.deltaR (mkSV (1 / 4 - 1 / 2 ^ 30) 1 1) jet0 = F.fin (1 / 4 - 1 / 2 ^ 30)
      ∧ F.lt (F.fin (1 / 4 - 1 / 2 ^ 30)) (filler0 [pv0] [mkSV (1 / 4 - 1 / 2 ^ 30) 1 1]).jetR_
          = true
      ∧ F.le (F.fin (1 / 4 - 1 / 2 ^ 30)) (F.fin (1 / 2)) = true
      ∧ (written lineGeometry (filler0 [pv0] [mkSV (1 / 4 - 1 / 2 ^ 30) 1 1]) jet0 0).multi
          "sv_deltaR" = [F.fin (-(1 / 4))]
      ∧ (written lineGeometry (filler0 [pv0] [mkSV (1 / 4 - 1 / 2 ^ 30) 1 1]) jet0 0).multi
          "sv_deltaR" ≠ [F.fin (1 / 4 - 1 / 2 ^ 30 - 1 / 2)] := by
  refine ⟨by decide!, by decide!, by decide!, by decide!, by decide!⟩

/-- C9 (amended): the `k`-th entry of `sv_deltaR` is the sanitizer applied to
the `double` difference `|deltaR(sv_k, jet)| - 0.5` with center 0 and bounds
`[-2, 0]`, converted to `float`.  For an emitted candidate, when
`jetR_ = 0.8` and its separation is non-negative, the separation is a finite
`d` with `0 <= d < 0.8`, `d - 0.5` and the value before clipping (the `double`
nearest to `d - 0.5`) lie in `[-0.5, 0.3)`, and the entry is the `float`
nearest to that value when `d <= 0.5` and 0 otherwise, hence finite and within
`[-0.5, 0]`. -/
theorem sv_deltaR_formula (g : Geometry) (self : SVFiller) (jet : Jet) (jetidx : Nat)
    (pv : Vertex) (pvs : List Vertex) (h : self.vertices = pv :: pvs) :
    (written g self jet jetidx).multi "sv_deltaR"
        = (rankSVs g self jet pv).map (fun sv =>
            F.toFloat (catchInfsAndBound (F.dsub (F.abs (g.deltaR sv jet)) (F.fin (1 / 2)))
              (F.fin 0) (F.fin (-2)) (F.fin 0)))
      ∧ ∀ sv ∈ rankSVs g self jet pv, self.jetR_ = F.fin (8 / 10) →
          F.le (F.fin 0) (g.deltaR sv jet) = true →
          ∃ d : ℚ, g.deltaR sv jet = F.fin d ∧ 0 ≤ d ∧ d < 8 / 10
            ∧ -(1 / 2) ≤ d - 1 / 2 ∧ d - 1 / 2 < 3 / 10
            ∧ F.dsub (F.abs (g.deltaR sv jet)) (F.fin (1 / 2)) = F.toDouble (F.fin (d - 1 / 2))
            ∧ F.le (F.fin (-(1 / 2))) (F.dsub (F.abs (g.deltaR sv jet)) (F.fin (1 / 2))) = true
            ∧ F.lt (F.dsub (F.abs (g.deltaR sv jet)) (F.fin (1 / 2))) (F.fin (3 / 10)) = true
            ∧ F.toFloat (catchInfsAndBound (F.dsub (F.abs (g.deltaR sv jet)) (F.fin (1 / 2)))
                  (F.fin 0) (F.fin (-2)) (F.fin 0))
                = (if d ≤ 1 / 2 then F.toFloat (F.toDouble (F.fin (d - 1 / 2))) else F.fin 0)
            ∧ (F.toFloat (catchInfsAndBound (F.dsub (F.abs (g.deltaR sv jet)) (F.fin (1 / 2)))
                  (F.fin 0) (F.fin (-2)) (F.fin 0))).isFinite = true
            ∧ F.le (F.fin (-(1 / 2)))
                (F.toFloat (catchInfsAndBound (F.dsub (F.abs (g.deltaR sv jet)) (F.fin (1 / 2)))
                  (F.fin 0) (F.fin (-2)) (F.fin 0))) = true
            ∧ F.le (F.toFloat (catchInfsAndBound
                  (F.dsub (F.abs (g.deltaR sv jet)) (F.fin (1 / 2)))
                  (F.fin 0) (F.fin (-2)) (F.fin 0))) (F.fin 0) = true := by
  refine ⟨multi_deltaR_written g self jet jetidx pv pvs h, ?_⟩
  intro sv hsv hR hp
  have hlt := ((mem_rankSVs g self jet pv sv).1 hsv).2
  rw [hR] at hlt
  cases hd : g.deltaR sv jet with
  | nan => rw [hd] at hlt; simp [F.lt] at hlt
  | ninf => rw [hd] at hp; simp [F.le] at hp
  | pinf => rw [hd] at hlt; simp [F.lt] at hlt
  | fin d =>
    rw [hd] at hlt hp
    have h0 : 0 ≤ d := by simpa [F.le] using hp
    have h8 : d < 8 / 10 := by simpa [F.lt] using hlt
    obtain ⟨e1, e2, e3, e4, e5, e6, e7⟩ := sv_deltaR_entry d h0 h8
    exact ⟨d, rfl, h0, h8, by linarith, by linarith, e1, e2, e3, e4, e5, e6, e7⟩

/-- Witness of C9 (amended): radius 0.8 and candidates at separations 0.1 and
0.7, of significances 1 and 5; the entries are 0 and the `float` nearest to
-0.4. -/
theorem sv_deltaR_formula_witness :
    (filler0 [pv0] [mkSV (1 / 10) 1 1, mkSV (7 / 10) 5 1]).vertices = pv0 :: []
      ∧ (written lineGeometry (filler0 [pv0] [mkSV (1 / 10) 1 1, mkSV (7 / 10) 5 1]) jet0
          0).multi "sv_deltaR" = [F.fin 0, F.fin (-13421773 / 33554432)]
      ∧ (written lineGeometry (filler0 [pv0] [mkSV (1 / 10) 1 1, mkSV (7 / 10) 5 1]) jet0
          0).multi "sv_deltaR"
          = (rankSVs lineGeometry (filler0 [pv0] [mkSV (1 / 10) 1 1, mkSV (7 / 10) 5 1]) jet0
              pv0).map (fun sv =>
                F.toFloat (catchInfsAndBound
                  (F.dsub (F.abs (lineGeometry.deltaR sv jet0)) (F.fin (1 / 2)))
                  (F.fin 0) (F.fin (-2)) (F.fin 0))) :=
  ⟨rfl, by decide!,
    (sv_deltaR_formula lineGeometry (filler0 [pv0] [mkSV (1 / 10) 1 1, mkSV (7 / 10) 5 1]) jet0 0
      pv0 [] rfl).1⟩

/-- C10 (counterexample): with an empty primary-vertex collection `fill` does
not return `true`: it ends with the exception `std::out_of_range`. -/
theorem fill_does_not_return_example :
    (fill lineGeometry (filler0 [] [mkSV (1 / 10) 1 1]) jet0 0).1
        = Except.error FillError.outOfRange
      ∧ (fill lineGeometry (filler0 [] [mkSV (1 / 10) 1 1]) jet0 0).1 ≠ Except.ok true := by
  have h : (fill lineGeometry (filler0 [] [mkSV (1 / 10) 1 1]) jet0 0).1
      = Except.error FillError.outOfRange := rfl
  refine ⟨h, ?_⟩
  rw [h]
  intro hc
  cases hc

/-- C10 (amended): `fill` returns `true` for every jet whenever the
primary-vertex collection is not empty, whatever the candidates and their
values; with an empty collection it ends with `std::out_of_range`; on no
input does it return `false`. -/
theorem fill_returns_true_or_throws (g : Geometry) (self : SVFiller) (jet : Jet)
    (jetidx : Nat) :
    (fill g self jet jetidx).1
        = (if self.vertices = [] then Except.error FillError.outOfRange else Except.ok true)
      ∧ (fill g self jet jetidx).1 ≠ Except.ok false := by
  cases hv : self.vertices with
  | nil =>
    have hf : (fill g self jet jetidx).1 = Except.error FillError.outOfRange := by
      simp [fill, hv]
    refine ⟨by simp [hf], ?_⟩
    rw [hf]
    intro hc
    cases hc
  | cons pv pvs =>
    have hf : (fill g self jet jetidx).1 = Except.ok true := by
      rw [fill_cons g self jet jetidx pv pvs hv]
    refine ⟨by simp [hf], ?_⟩
    rw [hf]
    intro hc
    cases hc

end deepntuples
